import Mathlib

/-!
# Flight calculator: chain reconstruction

A shallow embedding of `calculate` from `calculate.go` and theorems about it.

Go maps are embedded as association lists with pairwise distinct keys
(`GoMap`).  The order in which a `range` loop enumerates a map is not
specified by Go, so the two `range` loops of `calculate` take the enumeration
order as an argument (`srcOrder`, `dstOrder`); the predicate `RangeOrder`
says that these arguments are enumerations of the keys of the two sets.
The inner `for` loop has no syntactic bound, so the embedding gives it an
iteration budget (`fuel`); `Outcome.outOfFuel` is the result of a run whose
budget was too small.
-/

namespace FlightCalculator

/-- The Go type `FlightPath`, a slice of strings. -/
abbrev FlightPath := List String

/-- A Go `map[string]β`: an association list, one entry per key. -/
def GoMap (β : Type) := List (String × β)

namespace GoMap

/-- The empty map, `make(map[string]β)`. -/
def empty {β : Type} : GoMap β := ([] : List (String × β))

/-- The two-valued lookup `v, exists := m[k]`. -/
def get? {β : Type} : GoMap β → String → Option β
  | [], _ => none
  | (k', v) :: t, k => if k' = k then some v else get? t k

/-- The assignment `m[k] = v`: overwrites the entry of `k` when there is one. -/
def set {β : Type} : GoMap β → String → β → GoMap β
  | [], k, v => [(k, v)]
  | (k', v') :: t, k, v => if k' = k then (k, v) :: t else (k', v') :: set t k v

/-- The keys of the map. -/
def keys {β : Type} (m : GoMap β) : List String := List.map Prod.fst m

/-- The Go builtin `len(m)`. -/
def len {β : Type} (m : GoMap β) : Nat := List.length m

/-- The one-valued lookup `m[k]` of a `map[string]bool`: `false` for a missing key. -/
def getB (m : GoMap Bool) (k : String) : Bool := (get? m k).getD false

end GoMap

/-- The three maps that the first loop of `calculate` populates. -/
structure Maps where
  srcToDestMap : GoMap String
  sourceSet : GoMap Bool
  destinationSet : GoMap Bool

/-- The maps before the first loop. -/
def Maps.init : Maps := ⟨GoMap.empty, GoMap.empty, GoMap.empty⟩

/-- The first loop of `calculate`.  The result is `none` when an index
expression `fp[0]` or `fp[1]` is out of range (a run-time panic in Go). -/
def populate : List FlightPath → Maps → Option Maps
  | [], st => some st
  | fp :: rest, st =>
    match fp[0]?, fp[1]? with
    | some src, some dest =>
      populate rest
        ⟨st.srcToDestMap.set src dest, st.sourceSet.set src true, st.destinationSet.set dest true⟩
    | _, _ => none

/-- How one forward walk (the inner `for` loop) ends. -/
inductive WalkResult where
  | ended (node : String)
  | cycle
  | outOfFuel
  deriving DecidableEq, Repr

/-- The inner `for` loop of `calculate`, run for at most `fuel` iterations. -/
def walk (srcToDestMap : GoMap String) : Nat → GoMap Bool → String → WalkResult
  | 0, _, _ => .outOfFuel
  | fuel + 1, visitedSource, currentSrc =>
    if visitedSource.getB currentSrc then .cycle
    else
      match srcToDestMap.get? currentSrc with
      | none => .ended currentSrc
      | some dest => walk srcToDestMap fuel (visitedSource.set currentSrc true) dest

/-- What a call of `calculate` does. -/
inductive Outcome where
  | ok (result : List (List String))
  | error (msg : String)
  | panic
  | outOfFuel
  deriving DecidableEq, Repr

/-- The loop over `primarySources`: one walk per primary source, the first
cyclic walk aborts the call. -/
def walkAll (fuel : Nat) (srcToDestMap : GoMap String) :
    List String → List (List String) → Outcome
  | [], result => .ok result
  | src :: rest, result =>
    match walk srcToDestMap fuel GoMap.empty src with
    | .cycle => .error "Cycle detected in flight paths"
    | .outOfFuel => .outOfFuel
    | .ended currentSrc => walkAll fuel srcToDestMap rest (result ++ [[src, currentSrc]])

/-- The function `calculate`.  `srcOrder` and `dstOrder` are the orders in
which `range sourceSet` and `range destinationSet` yield the keys, `fuel`
bounds the iterations of each forward walk. -/
def calculate (fuel : Nat) (srcOrder dstOrder : List String)
    (flightPaths : List FlightPath) : Outcome :=
  match populate flightPaths Maps.init with
  | none => .panic
  | some st =>
    let primarySources := srcOrder.filter (fun key => !st.destinationSet.getB key)
    if primarySources.length < 1 then
      .error "No primary sources could be identified"
    else
      let finalDestinations := dstOrder.filter (fun key => !st.sourceSet.getB key)
      if st.destinationSet.len < 1 then
        .error "No final destinations could be identified"
      else if primarySources.length ≠ finalDestinations.length then
        .error "Mismatch in primary sources and final destinations"
      else
        walkAll fuel st.srcToDestMap primarySources []

/-- The enumeration orders `srcOrder`, `dstOrder` are orders in which Go may
enumerate the two sets built from `flightPaths`: each lists the keys of its
set once.  (Nothing is enumerated when the first loop panics.) -/
def RangeOrder (srcOrder dstOrder : List String) (flightPaths : List FlightPath) : Prop :=
  match populate flightPaths Maps.init with
  | none => True
  | some st => srcOrder.Perm st.sourceSet.keys ∧ dstOrder.Perm st.destinationSet.keys

/-- The enumeration in insertion order, one of the orders Go may choose. -/
def insertionOrder (flightPaths : List FlightPath) : List String × List String :=
  match populate flightPaths Maps.init with
  | none => ([], [])
  | some st => (st.sourceSet.keys, st.destinationSet.keys)


/-! ## Vocabulary of the specification -/

/-- The identifiers that occur as a source, in input order. -/
def sources (flightPaths : List FlightPath) : List String :=
  flightPaths.filterMap (fun fp => fp[0]?)

/-- The identifiers that occur as a destination, in input order. -/
def destinations (flightPaths : List FlightPath) : List String :=
  flightPaths.filterMap (fun fp => fp[1]?)

/-- Primary sources: the source set minus the destination set. -/
def primarySet (flightPaths : List FlightPath) : Finset String :=
  (sources flightPaths).toFinset \ (destinations flightPaths).toFinset

/-- Final destinations: the destination set minus the source set. -/
def finalSet (flightPaths : List FlightPath) : Finset String :=
  (destinations flightPaths).toFinset \ (sources flightPaths).toFinset

/-- The last-write-wins adjacency: the destination of the last edge whose
source is `k`. -/
def lastDest : List FlightPath → String → Option String
  | [], _ => none
  | fp :: rest, k =>
    match lastDest rest k with
    | some d => some d
    | none => if fp[0]? = some k then fp[1]? else none

/-- The node reached from `s` after `n` steps along the adjacency `adj`, if
the walk is that long. -/
def nodeAt (adj : String → Option String) : Nat → String → Option String
  | 0, s => some s
  | n + 1, s =>
    match adj s with
    | none => none
    | some d => nodeAt adj n d

/-- The forward walk from `s` through the last-write-wins adjacency visits
some identifier twice. -/
def Revisits (flightPaths : List FlightPath) (s : String) : Prop :=
  ∃ i j x, i < j ∧ nodeAt (lastDest flightPaths) i s = some x ∧
    nodeAt (lastDest flightPaths) j s = some x

/-- The walk from `cur` meets an identifier that is marked in `vis` or that
it has met before. -/
def RevisitFrom (adj : String → Option String) (vis : GoMap Bool) (cur : String) : Prop :=
  ∃ j x, nodeAt adj j cur = some x ∧
    (vis.getB x = true ∨ ∃ i, i < j ∧ nodeAt adj i cur = some x)

/-- The node at which the walk from `s` ends (`s` itself when it does not end). -/
def walkEnd (srcToDestMap : GoMap String) (fuel : Nat) (s : String) : String :=
  match walk srcToDestMap fuel GoMap.empty s with
  | .ended e => e
  | _ => s

/-- The edge list has an edge from `a` to `b`. -/
def Edge (flightPaths : List FlightPath) (a b : String) : Prop :=
  ∃ fp ∈ flightPaths, fp[0]? = some a ∧ fp[1]? = some b

/-- The edges contain a directed cycle: some identifier reaches itself by
following one or more edges. -/
def HasCycle (flightPaths : List FlightPath) : Prop :=
  ∃ x, Relation.TransGen (Edge flightPaths) x x

/-- Some source has two different destinations. -/
def Fork (flightPaths : List FlightPath) : Prop :=
  ∃ a b c, b ≠ c ∧ Edge flightPaths a b ∧ Edge flightPaths a c

/-- Some destination has two different sources. -/
def Join (flightPaths : List FlightPath) : Prop :=
  ∃ a b c, a ≠ b ∧ Edge flightPaths a c ∧ Edge flightPaths b c

/-- The distinct identifiers of the input. -/
def identifiers (flightPaths : List FlightPath) : Finset String :=
  (sources flightPaths ++ destinations flightPaths).toFinset

/-- The node `e` is where the walk from `s` along the last-write-wins adjacency
stops: `e` is reached from `s` and has no entry. -/
def IsEnd (flightPaths : List FlightPath) (s e : String) : Prop :=
  ∃ n, nodeAt (lastDest flightPaths) n s = some e ∧ lastDest flightPaths e = none

/-- Apply the adjacency `adj` from `s` until a node without entry, at most `n` times. -/
def follow (adj : String → Option String) : Nat → String → String
  | 0, s => s
  | n + 1, s =>
    match adj s with
    | none => s
    | some d => follow adj n d

/-- The node `end(s)`: follow the last-write-wins adjacency from `s` until a
node without entry (a walk without repetition has at most as many steps as
there are edges). -/
def chainEnd (flightPaths : List FlightPath) (s : String) : String :=
  follow (lastDest flightPaths) flightPaths.length s

/-- The distinct primary sources, as a list. -/
def primaryList (flightPaths : List FlightPath) : List String :=
  (sources flightPaths).dedup.filter (fun k => decide (k ∉ destinations flightPaths))

/-- The consecutive edges `(v0,v1), (v1,v2), ...` of the path `v0, v1, v2, ...`. -/
def chainEdges : List String → List FlightPath
  | a :: b :: t => [a, b] :: chainEdges (b :: t)
  | _ => []

instance RangeOrder.decidable (srcOrder dstOrder : List String)
    (flightPaths : List FlightPath) :
    Decidable (RangeOrder srcOrder dstOrder flightPaths) := by
  unfold RangeOrder
  cases populate flightPaths Maps.init with
  | none => exact isTrue trivial
  | some st =>
    exact (inferInstance :
      Decidable (srcOrder.Perm st.sourceSet.keys ∧ dstOrder.Perm st.destinationSet.keys))

/-! ## The handler -/

/-- The status codes `http.StatusOK`, `http.StatusBadRequest` and
`http.StatusInternalServerError`. -/
def StatusOK : Nat := 200

/-- The constant `http.StatusBadRequest`. -/
def StatusBadRequest : Nat := 400

/-- The constant `http.StatusInternalServerError`. -/
def StatusInternalServerError : Nat := 500

/-- The error of `decoder.Decode`, by the cases that the handler tells apart. -/
inductive DecodeError where
  | syntaxError (offset : Int)
  | unmarshalTypeError (field : String) (offset : Int)
  | eof
  | other (text : String)
  deriving DecidableEq, Repr

/-- What the handler does with its `http.ResponseWriter`: either one call
`http.Error(w, error, code)`, or `w.Header().Set("Content-Type", contentType)`
followed by `w.Write(body)`. -/
inductive Response where
  | httpError (error : String) (code : Nat)
  | write (contentType : String) (body : String)
  deriving DecidableEq, Repr

/-- The status of a response: the code given to `http.Error`, and
`http.StatusOK` for a `Write` without a preceding `WriteHeader`. -/
def Response.status : Response → Nat
  | .httpError _ code => code
  | .write _ _ => StatusOK

/-- How a call of the handler ends. -/
inductive HandlerResult where
  | responded (response : Response)
  | panic
  | outOfFuel
  deriving DecidableEq, Repr

/-- A run of the handler: how it ends, the arguments of its calls of
`calculate` in order, and what it passed to `log.Print`. -/
structure HandlerRun where
  result : HandlerResult
  coreCalls : List (List FlightPath)
  logged : List String
  deriving DecidableEq, Repr

/-- The functions of the Go standard library that the handler applies to data:
`json.Marshal` on the result (the bytes, or the text of its error) and the
quoting of the verb `%q`. -/
structure Lib where
  marshal : List (List String) → Except String String
  quote : String → String

/-- The validation loop of the handler: `true` when it meets a flight path whose
length is not 2. -/
def invalidStructure : List FlightPath → Bool
  | [] => false
  | fp :: rest => if fp.length ≠ 2 then true else invalidStructure rest

/-- The function `calculateHandler`, from the outcome of `decoder.Decode` on.
`fuel`, `srcOrder` and `dstOrder` are those of its call of `calculate`. -/
def calculateHandler (lib : Lib) (fuel : Nat) (srcOrder dstOrder : List String)
    (decoded : Except DecodeError (List FlightPath)) : HandlerRun :=
  match decoded with
  | .error (.syntaxError offset) =>
    ⟨.responded (.httpError
      ("Request body contains badly-formed JSON (at position " ++ toString offset ++ ")")
      StatusBadRequest), [], []⟩
  | .error (.unmarshalTypeError field offset) =>
    ⟨.responded (.httpError
      ("Request body contains an invalid value for the " ++ lib.quote field
        ++ " field (at position " ++ toString offset ++ ")")
      StatusBadRequest), [], []⟩
  | .error .eof =>
    ⟨.responded (.httpError "Request body must not be empty" StatusBadRequest), [], []⟩
  | .error (.other text) =>
    ⟨.responded (.httpError "Internal Server Error" StatusInternalServerError), [], [text]⟩
  | .ok flightPaths =>
    if invalidStructure flightPaths then
      ⟨.responded (.httpError "Request body contains invalid structure" StatusBadRequest),
        [], []⟩
    else
      match calculate fuel srcOrder dstOrder flightPaths with
      | .error msg =>
        ⟨.responded (.httpError msg StatusInternalServerError), [flightPaths], []⟩
      | .panic => ⟨.panic, [flightPaths], []⟩
      | .outOfFuel => ⟨.outOfFuel, [flightPaths], []⟩
      | .ok resultFlightPath =>
        match lib.marshal resultFlightPath with
        | .error e =>
          ⟨.responded (.httpError e StatusInternalServerError), [flightPaths], []⟩
        | .ok result =>
          ⟨.responded (.write "application/json" result), [flightPaths], []⟩

/-- A library for examples: every list of pairs can be serialized. -/
def sampleLib : Lib :=
  ⟨fun r => .ok (String.intercalate "," (r.map (String.intercalate ":"))), fun s => s⟩

/-! ## Go maps -/

namespace GoMap

theorem get?_set {β : Type} (m : GoMap β) (k : String) (v : β) (k' : String) :
    get? (set m k v) k' = if k = k' then some v else get? m k' := by
  induction m with
  | nil => simp [set, get?]
  | cons p t ih =>
    obtain ⟨a, b⟩ := p
    by_cases h : a = k
    · subst h
      by_cases h' : a = k' <;> simp [set, get?, h']
    · by_cases h' : a = k'
      · subst h'
        simp [set, get?, h, Ne.symm h]
      · simp [set, get?, h, h', ih]

theorem mem_keys_iff {β : Type} (m : GoMap β) (k : String) :
    k ∈ keys m ↔ get? m k ≠ none := by
  induction m with
  | nil => simp [keys, get?]
  | cons p t ih =>
    obtain ⟨a, b⟩ := p
    by_cases h : a = k
    · simp [keys, get?, h]
    · have ih' : k ∈ List.map Prod.fst t ↔ get? t k ≠ none := ih
      simp [keys, get?, h, Ne.symm h, ih']

theorem keys_set {β : Type} (m : GoMap β) (k : String) (v : β) :
    keys (set m k v) = if k ∈ keys m then keys m else keys m ++ [k] := by
  induction m with
  | nil => simp [set, keys]
  | cons p t ih =>
    obtain ⟨a, b⟩ := p
    have ih' : List.map Prod.fst (set t k v)
        = if k ∈ List.map Prod.fst t then List.map Prod.fst t
          else List.map Prod.fst t ++ [k] := ih
    by_cases h : a = k
    · simp [set, keys, h]
    · by_cases h2 : k ∈ List.map Prod.fst t
      · simp [set, keys, h, ih', h2]
      · simp [set, keys, h, Ne.symm h, ih', h2]

theorem nodup_keys_set {β : Type} (m : GoMap β) (k : String) (v : β)
    (h : (keys m).Nodup) : (keys (set m k v)).Nodup := by
  rw [keys_set]
  split
  · exact h
  · rename_i hk
    exact List.Nodup.append h (List.nodup_singleton k) (by simpa using hk)

theorem len_set_le {β : Type} (m : GoMap β) (k : String) (v : β) :
    len (set m k v) ≤ len m + 1 := by
  have h : (keys (set m k v)).length ≤ (keys m).length + 1 := by
    rw [keys_set]; split <;> simp
  simpa [keys, len] using h

theorem getB_set (m : GoMap Bool) (k k' : String) :
    getB (set m k true) k' = (decide (k = k') || getB m k') := by
  unfold getB
  rw [get?_set]
  by_cases h : k = k' <;> simp [h]

theorem getB_empty (k : String) : getB empty k = false := rfl

theorem get?_empty {β : Type} (k : String) : get? (empty : GoMap β) k = none := rfl

end GoMap

/-! ## The first loop -/

theorem populate_isSome (flightPaths : List FlightPath)
    (h : ∀ fp ∈ flightPaths, fp.length = 2) (st : Maps) :
    ∃ st', populate flightPaths st = some st' := by
  induction flightPaths generalizing st with
  | nil => exact ⟨st, rfl⟩
  | cons fp rest ih =>
    have h2 : fp.length = 2 := h fp (List.mem_cons_self _ _)
    match fp, h2 with
    | [a, b], _ =>
      simp only [populate, List.getElem?_cons_zero, List.getElem?_cons_succ]
      exact ih (fun fp hfp => h fp (List.mem_cons_of_mem _ hfp)) _

theorem populate_spec (flightPaths : List FlightPath) (st st' : Maps)
    (h : populate flightPaths st = some st') :
    (∀ k, st'.sourceSet.get? k
        = if k ∈ sources flightPaths then some true else st.sourceSet.get? k) ∧
    (∀ k, st'.destinationSet.get? k
        = if k ∈ destinations flightPaths then some true else st.destinationSet.get? k) ∧
    (∀ k, st'.srcToDestMap.get? k
        = match lastDest flightPaths k with
          | some d => some d
          | none => st.srcToDestMap.get? k) ∧
    (st.sourceSet.keys.Nodup → st'.sourceSet.keys.Nodup) ∧
    (st.destinationSet.keys.Nodup → st'.destinationSet.keys.Nodup) ∧
    st'.srcToDestMap.len ≤ st.srcToDestMap.len + flightPaths.length := by
  induction flightPaths generalizing st with
  | nil =>
    simp only [populate, Option.some.injEq] at h
    subst h
    simp [sources, destinations, lastDest]
  | cons fp rest ih =>
    unfold populate at h
    split at h
    · rename_i src dest h0 h1
      obtain ⟨i1, i2, i3, i4, i5, i6⟩ := ih _ h
      refine ⟨?_, ?_, ?_, ?_, ?_, ?_⟩
      · intro k
        rw [i1 k, GoMap.get?_set]
        by_cases hk : k ∈ sources rest
        · simp [sources, h0] at hk ⊢
          simp [hk]
        · by_cases hs : src = k
          · simp [sources, h0, hs]
          · simp [sources, h0] at hk ⊢
            simp [hk, hs, Ne.symm hs]
      · intro k
        rw [i2 k, GoMap.get?_set]
        by_cases hk : k ∈ destinations rest
        · simp [destinations, h1] at hk ⊢
          simp [hk]
        · by_cases hs : dest = k
          · simp [destinations, h1, hs]
          · simp [destinations, h1] at hk ⊢
            simp [hk, hs, Ne.symm hs]
      · intro k
        rw [i3 k, GoMap.get?_set]
        simp only [lastDest]
        cases lastDest rest k with
        | some d => rfl
        | none =>
          by_cases hs : src = k
          · simp [h0, h1, hs]
          · simp [h0, hs]
      · intro hn
        exact i4 (GoMap.nodup_keys_set _ _ _ hn)
      · intro hn
        exact i5 (GoMap.nodup_keys_set _ _ _ hn)
      · have := GoMap.len_set_le st.srcToDestMap src dest
        simp only [List.length_cons] at i6 ⊢
        omega
    · exact absurd h (by simp)

theorem populate_init (flightPaths : List FlightPath) (st : Maps)
    (h : populate flightPaths Maps.init = some st) :
    (∀ k, st.sourceSet.getB k = decide (k ∈ sources flightPaths)) ∧
    (∀ k, st.destinationSet.getB k = decide (k ∈ destinations flightPaths)) ∧
    (∀ k, st.srcToDestMap.get? k = lastDest flightPaths k) ∧
    st.sourceSet.keys.Nodup ∧ st.destinationSet.keys.Nodup ∧
    (∀ k, k ∈ st.sourceSet.keys ↔ k ∈ sources flightPaths) ∧
    (∀ k, k ∈ st.destinationSet.keys ↔ k ∈ destinations flightPaths) ∧
    st.srcToDestMap.len ≤ flightPaths.length := by
  obtain ⟨h1, h2, h3, h4, h5, h6⟩ := populate_spec flightPaths Maps.init st h
  have e1 : ∀ k, st.sourceSet.get? k
      = if k ∈ sources flightPaths then some true else none := h1
  have e2 : ∀ k, st.destinationSet.get? k
      = if k ∈ destinations flightPaths then some true else none := h2
  refine ⟨?_, ?_, ?_, h4 List.nodup_nil, h5 List.nodup_nil, ?_, ?_, ?_⟩
  · intro k
    unfold GoMap.getB
    rw [e1 k]
    by_cases hk : k ∈ sources flightPaths <;> simp [hk]
  · intro k
    unfold GoMap.getB
    rw [e2 k]
    by_cases hk : k ∈ destinations flightPaths <;> simp [hk]
  · intro k
    rw [h3 k]
    cases lastDest flightPaths k <;> rfl
  · intro k
    rw [GoMap.mem_keys_iff, e1 k]
    by_cases hk : k ∈ sources flightPaths <;> simp [hk]
  · intro k
    rw [GoMap.mem_keys_iff, e2 k]
    by_cases hk : k ∈ destinations flightPaths <;> simp [hk]
  · have : (Maps.init).srcToDestMap.len = 0 := rfl
    omega

/-- Every input has an enumeration order: the insertion order. -/
theorem rangeOrder_insertionOrder (flightPaths : List FlightPath) :
    RangeOrder (insertionOrder flightPaths).1 (insertionOrder flightPaths).2
      flightPaths := by
  unfold RangeOrder insertionOrder
  cases populate flightPaths Maps.init with
  | none => trivial
  | some st => exact ⟨List.Perm.refl _, List.Perm.refl _⟩

/-! ## The forward walk -/

theorem filter_length_lt {l : List String} {p q : String → Bool}
    (hqp : ∀ x, q x = true → p x = true) {a : String} (ha : a ∈ l)
    (hpa : p a = true) (hqa : q a = false) :
    (l.filter q).length < (l.filter p).length := by
  induction l with
  | nil => exact absurd ha (List.not_mem_nil a)
  | cons b t ih =>
    have hle : (t.filter q).length ≤ (t.filter p).length := by
      rw [← List.countP_eq_length_filter, ← List.countP_eq_length_filter]
      exact List.countP_mono_left (fun x _ => hqp x)
    rcases List.mem_cons.1 ha with rfl | hat
    · rw [List.filter_cons_of_pos hpa, List.filter_cons_of_neg (by simp [hqa])]
      simp only [List.length_cons]
      omega
    · have := ih hat
      by_cases hq : q b = true
      · rw [List.filter_cons_of_pos hq, List.filter_cons_of_pos (hqp b hq)]
        simp only [List.length_cons]
        omega
      · by_cases hp : p b = true
        · rw [List.filter_cons_of_neg hq, List.filter_cons_of_pos hp]
          simp only [List.length_cons]
          omega
        · rw [List.filter_cons_of_neg hq, List.filter_cons_of_neg hp]
          exact this

/-- A walk whose budget exceeds the number of unvisited keys of the
adjacency map does not run out of budget. -/
theorem walk_fuel (m : GoMap String) (fuel : Nat) (vis : GoMap Bool) (cur : String)
    (h : ((GoMap.keys m).filter (fun k => !vis.getB k)).length < fuel) :
    walk m fuel vis cur ≠ .outOfFuel := by
  induction fuel generalizing vis cur with
  | zero => exact absurd h (Nat.not_lt_zero _)
  | succ n ih =>
    unfold walk
    by_cases hv : vis.getB cur = true
    · simp [hv]
    · have hv' : vis.getB cur = false := by simpa using hv
      simp only [hv', Bool.false_eq_true, if_false]
      cases hg : m.get? cur with
      | none => simp
      | some d =>
        simp only
        apply ih
        have hmem : cur ∈ GoMap.keys m := by
          rw [GoMap.mem_keys_iff, hg]; simp
        have := filter_length_lt
          (p := fun k => !vis.getB k) (q := fun k => !(vis.set cur true).getB k)
          (fun x hx => by
            simp only [GoMap.getB_set] at hx
            cases hvx : vis.getB x <;> simp_all)
          hmem (by simp [hv']) (by simp [GoMap.getB_set])
        omega

/-- More budget does not change the result of a walk that ended within its budget. -/
theorem walk_mono (m : GoMap String) (fuel : Nat) (vis : GoMap Bool) (cur : String)
    (h : walk m fuel vis cur ≠ .outOfFuel) (fuel' : Nat) (hle : fuel ≤ fuel') :
    walk m fuel' vis cur = walk m fuel vis cur := by
  induction fuel generalizing vis cur fuel' with
  | zero => exact absurd rfl h
  | succ n ih =>
    obtain ⟨n', rfl⟩ : ∃ n', fuel' = n' + 1 := ⟨fuel' - 1, by omega⟩
    unfold walk at h ⊢
    by_cases hv : vis.getB cur = true
    · simp [hv]
    · have hv' : vis.getB cur = false := by simpa using hv
      simp only [hv', Bool.false_eq_true, if_false] at h ⊢
      cases hg : m.get? cur with
      | none => rfl
      | some d =>
        simp only [hg] at h ⊢
        exact ih _ _ h n' (by omega)

theorem revisitFrom_of_visited (adj : String → Option String) (vis : GoMap Bool)
    (cur : String) (hv : vis.getB cur = true) : RevisitFrom adj vis cur :=
  ⟨0, cur, rfl, Or.inl hv⟩

theorem not_revisitFrom_of_end (adj : String → Option String) (vis : GoMap Bool)
    (cur : String) (hv : vis.getB cur = false) (hg : adj cur = none) :
    ¬ RevisitFrom adj vis cur := by
  rintro ⟨j, x, hx, hor⟩
  cases j with
  | zero =>
    simp only [nodeAt, Option.some.injEq] at hx
    subst hx
    rcases hor with h | ⟨i, hi, _⟩
    · simp [hv] at h
    · exact absurd hi (Nat.not_lt_zero _)
  | succ j => simp [nodeAt, hg] at hx

theorem revisitFrom_step (adj : String → Option String) (vis : GoMap Bool)
    (cur d : String) (hv : vis.getB cur = false) (hg : adj cur = some d) :
    RevisitFrom adj vis cur ↔ RevisitFrom adj (vis.set cur true) d := by
  constructor
  · rintro ⟨j, x, hx, hor⟩
    cases j with
    | zero =>
      simp only [nodeAt, Option.some.injEq] at hx
      subst hx
      rcases hor with h | ⟨i, hi, _⟩
      · simp [hv] at h
      · exact absurd hi (Nat.not_lt_zero _)
    | succ j =>
      have hx' : nodeAt adj j d = some x := by simpa [nodeAt, hg] using hx
      refine ⟨j, x, hx', ?_⟩
      rcases hor with h | ⟨i, hi, hix⟩
      · left; rw [GoMap.getB_set]; simp [h]
      · cases i with
        | zero =>
          simp only [nodeAt, Option.some.injEq] at hix
          left; rw [GoMap.getB_set]; simp [hix]
        | succ i =>
          right
          exact ⟨i, by omega, by simpa [nodeAt, hg] using hix⟩
  · rintro ⟨j, x, hx, hor⟩
    refine ⟨j + 1, x, by simpa [nodeAt, hg] using hx, ?_⟩
    rcases hor with h | ⟨i, hi, hix⟩
    · rw [GoMap.getB_set] at h
      by_cases hc : cur = x
      · right; exact ⟨0, by omega, by simp [nodeAt, hc]⟩
      · left; simpa [hc] using h
    · right
      exact ⟨i + 1, by omega, by simpa [nodeAt, hg] using hix⟩

/-- What the two results of a walk mean. -/
theorem walk_sound (m : GoMap String) (fuel : Nat) (vis : GoMap Bool) (cur : String) :
    (walk m fuel vis cur = .cycle → RevisitFrom m.get? vis cur) ∧
    (∀ e, walk m fuel vis cur = .ended e →
      ¬ RevisitFrom m.get? vis cur ∧ m.get? e = none ∧
        ∃ n, nodeAt m.get? n cur = some e) := by
  induction fuel generalizing vis cur with
  | zero => simp [walk]
  | succ n ih =>
    unfold walk
    by_cases hv : vis.getB cur = true
    · simp only [hv, if_true, true_implies]
      exact ⟨revisitFrom_of_visited _ _ _ hv, fun e he => by simp at he⟩
    · have hv' : vis.getB cur = false := by simpa using hv
      simp only [hv', Bool.false_eq_true, if_false]
      cases hg : m.get? cur with
      | none =>
        refine ⟨fun h => by simp at h, fun e he => ?_⟩
        simp only [WalkResult.ended.injEq] at he
        subst he
        exact ⟨not_revisitFrom_of_end _ _ _ hv' hg, hg, 0, rfl⟩
      | some d =>
        simp only
        obtain ⟨i1, i2⟩ := ih (vis.set cur true) d
        refine ⟨fun h => (revisitFrom_step _ _ _ _ hv' hg).2 (i1 h), fun e he => ?_⟩
        obtain ⟨a, b, k, hk⟩ := i2 e he
        exact ⟨fun hr => a ((revisitFrom_step _ _ _ _ hv' hg).1 hr), b, k + 1,
          by simpa [nodeAt, hg] using hk⟩

/-! ## The loop over the primary sources -/

theorem walkAll_ok (fuel : Nat) (m : GoMap String) (l : List String)
    (acc : List (List String))
    (h : ∀ s ∈ l, ∃ e, walk m fuel GoMap.empty s = .ended e) :
    walkAll fuel m l acc = .ok (acc ++ l.map (fun s => [s, walkEnd m fuel s])) := by
  induction l generalizing acc with
  | nil => simp [walkAll]
  | cons s rest ih =>
    obtain ⟨e, he⟩ := h s (List.mem_cons_self _ _)
    have hw : walkEnd m fuel s = e := by simp [walkEnd, he]
    simp only [walkAll, he]
    rw [ih _ (fun s hs => h s (List.mem_cons_of_mem _ hs))]
    simp [hw]

theorem walkAll_cycle (fuel : Nat) (m : GoMap String) (l : List String)
    (acc : List (List String))
    (hf : ∀ s ∈ l, walk m fuel GoMap.empty s ≠ .outOfFuel)
    (hc : ∃ s ∈ l, walk m fuel GoMap.empty s = .cycle) :
    walkAll fuel m l acc = .error "Cycle detected in flight paths" := by
  induction l generalizing acc with
  | nil => obtain ⟨s, hs, _⟩ := hc; exact absurd hs (List.not_mem_nil s)
  | cons s rest ih =>
    cases hw : walk m fuel GoMap.empty s with
    | cycle => simp [walkAll, hw]
    | outOfFuel => exact absurd hw (hf s (List.mem_cons_self _ _))
    | ended e =>
      simp only [walkAll, hw]
      apply ih _ (fun s hs => hf s (List.mem_cons_of_mem _ hs))
      obtain ⟨t, ht, htc⟩ := hc
      rcases List.mem_cons.1 ht with rfl | ht'
      · rw [hw] at htc; exact absurd htc (by simp)
      · exact ⟨t, ht', htc⟩

theorem walkAll_error (fuel : Nat) (m : GoMap String) (l : List String)
    (acc : List (List String)) (msg : String)
    (h : walkAll fuel m l acc = .error msg) :
    msg = "Cycle detected in flight paths" ∧
      ∃ s ∈ l, walk m fuel GoMap.empty s = .cycle := by
  induction l generalizing acc with
  | nil => simp [walkAll] at h
  | cons s rest ih =>
    cases hw : walk m fuel GoMap.empty s with
    | cycle =>
      simp only [walkAll, hw, Outcome.error.injEq] at h
      exact ⟨h.symm, s, List.mem_cons_self _ _, hw⟩
    | outOfFuel => simp [walkAll, hw] at h
    | ended e =>
      simp only [walkAll, hw] at h
      obtain ⟨h1, t, ht, htc⟩ := ih _ h
      exact ⟨h1, t, List.mem_cons_of_mem _ ht, htc⟩

theorem walkAll_ok_inv (fuel : Nat) (m : GoMap String) (l : List String)
    (acc r : List (List String)) (h : walkAll fuel m l acc = .ok r) :
    ∀ s ∈ l, ∃ e, walk m fuel GoMap.empty s = .ended e := by
  induction l generalizing acc with
  | nil => intro s hs; exact absurd hs (List.not_mem_nil s)
  | cons s rest ih =>
    cases hw : walk m fuel GoMap.empty s with
    | cycle => simp [walkAll, hw] at h
    | outOfFuel => simp [walkAll, hw] at h
    | ended e =>
      simp only [walkAll, hw] at h
      intro t ht
      rcases List.mem_cons.1 ht with rfl | ht'
      · exact ⟨e, hw⟩
      · exact ih _ h t ht'

/-! ## The validation checks -/

theorem mem_primarySources (flightPaths : List FlightPath) (st : Maps)
    (h : populate flightPaths Maps.init = some st) (srcOrder : List String)
    (hso : srcOrder.Perm st.sourceSet.keys) (s : String) :
    s ∈ srcOrder.filter (fun key => !st.destinationSet.getB key)
      ↔ s ∈ primarySet flightPaths := by
  obtain ⟨_, h2, _, _, _, h6, _, _⟩ := populate_init flightPaths st h
  simp only [List.mem_filter, primarySet, Finset.mem_sdiff, List.mem_toFinset,
    hso.mem_iff, h6, h2]
  simp

theorem length_primarySources (flightPaths : List FlightPath) (st : Maps)
    (h : populate flightPaths Maps.init = some st) (srcOrder : List String)
    (hso : srcOrder.Perm st.sourceSet.keys) :
    (srcOrder.filter (fun key => !st.destinationSet.getB key)).length
      = (primarySet flightPaths).card := by
  obtain ⟨_, _, _, h4, _, _, _, _⟩ := populate_init flightPaths st h
  have nd : (srcOrder.filter (fun key => !st.destinationSet.getB key)).Nodup :=
    (hso.nodup_iff.2 h4).filter _
  rw [← List.toFinset_card_of_nodup nd]
  congr 1
  ext s
  rw [List.mem_toFinset]
  exact mem_primarySources flightPaths st h srcOrder hso s

theorem length_finalDestinations (flightPaths : List FlightPath) (st : Maps)
    (h : populate flightPaths Maps.init = some st) (dstOrder : List String)
    (hdo : dstOrder.Perm st.destinationSet.keys) :
    (dstOrder.filter (fun key => !st.sourceSet.getB key)).length
      = (finalSet flightPaths).card := by
  obtain ⟨h1, _, _, _, h5, _, h7, _⟩ := populate_init flightPaths st h
  have nd : (dstOrder.filter (fun key => !st.sourceSet.getB key)).Nodup :=
    (hdo.nodup_iff.2 h5).filter _
  rw [← List.toFinset_card_of_nodup nd]
  congr 1
  ext s
  simp only [List.mem_toFinset, List.mem_filter, finalSet, Finset.mem_sdiff,
    hdo.mem_iff, h7, h1]
  simp

theorem len_destinationSet (flightPaths : List FlightPath) (st : Maps)
    (h : populate flightPaths Maps.init = some st) :
    st.destinationSet.len = (destinations flightPaths).toFinset.card := by
  obtain ⟨_, _, _, _, h5, _, h7, _⟩ := populate_init flightPaths st h
  have : st.destinationSet.len = st.destinationSet.keys.length := by
    simp [GoMap.len, GoMap.keys]
  rw [this, ← List.toFinset_card_of_nodup h5]
  congr 1
  ext s
  simp [h7]

/-- The checks of `calculate` in the vocabulary of the specification. -/
theorem calculate_eq (fuel : Nat) (srcOrder dstOrder : List String)
    (flightPaths : List FlightPath) (st : Maps)
    (h : populate flightPaths Maps.init = some st)
    (hr : RangeOrder srcOrder dstOrder flightPaths) :
    calculate fuel srcOrder dstOrder flightPaths =
      if (primarySet flightPaths).card < 1 then
        .error "No primary sources could be identified"
      else if (destinations flightPaths).toFinset.card < 1 then
        .error "No final destinations could be identified"
      else if (primarySet flightPaths).card ≠ (finalSet flightPaths).card then
        .error "Mismatch in primary sources and final destinations"
      else
        walkAll fuel st.srcToDestMap
          (srcOrder.filter (fun key => !st.destinationSet.getB key)) [] := by
  unfold RangeOrder at hr
  rw [h] at hr
  obtain ⟨hso, hdo⟩ := hr
  unfold calculate
  simp only [h]
  rw [length_primarySources flightPaths st h srcOrder hso,
    length_finalDestinations flightPaths st h dstOrder hdo,
    len_destinationSet flightPaths st h]

theorem walk_enough_fuel (fuel : Nat) (flightPaths : List FlightPath) (st : Maps)
    (h : populate flightPaths Maps.init = some st) (hf : flightPaths.length < fuel)
    (s : String) : walk st.srcToDestMap fuel GoMap.empty s ≠ .outOfFuel := by
  apply walk_fuel
  obtain ⟨_, _, _, _, _, _, _, h8⟩ := populate_init flightPaths st h
  have h1 := List.length_filter_le (fun k => !GoMap.getB GoMap.empty k)
    (GoMap.keys st.srcToDestMap)
  have h2 : (GoMap.keys st.srcToDestMap).length = st.srcToDestMap.len := by
    simp [GoMap.keys, GoMap.len]
  omega

theorem primarySet_eq_empty_iff (flightPaths : List FlightPath) :
    primarySet flightPaths = ∅
      ↔ ∀ k, k ∈ sources flightPaths → k ∈ destinations flightPaths := by
  simp only [primarySet, Finset.sdiff_eq_empty_iff_subset, Finset.subset_iff,
    List.mem_toFinset]

theorem finalSet_eq_empty_iff (flightPaths : List FlightPath) :
    finalSet flightPaths = ∅
      ↔ ∀ k, k ∈ destinations flightPaths → k ∈ sources flightPaths := by
  simp only [finalSet, Finset.sdiff_eq_empty_iff_subset, Finset.subset_iff,
    List.mem_toFinset]

theorem card_lt_one_iff (s : Finset String) : s.card < 1 ↔ s = ∅ := by
  rw [Nat.lt_one_iff, Finset.card_eq_zero]

theorem destinations_nonempty_of_primary (flightPaths : List FlightPath)
    (h2 : ∀ fp ∈ flightPaths, fp.length = 2) (hp : primarySet flightPaths ≠ ∅) :
    ¬ (destinations flightPaths).toFinset.card < 1 := by
  rw [card_lt_one_iff]
  intro he
  apply hp
  rw [primarySet_eq_empty_iff]
  intro k hk
  simp only [sources, List.mem_filterMap] at hk
  obtain ⟨fp, hfp, _⟩ := hk
  have hl := h2 fp hfp
  match fp, hl with
  | [a, b], _ =>
    have : b ∈ (destinations flightPaths).toFinset := by
      simp only [List.mem_toFinset, destinations, List.mem_filterMap]
      exact ⟨[a, b], hfp, rfl⟩
    rw [he] at this
    exact absurd this (Finset.not_mem_empty b)

/-! ## Paths and their edges -/

theorem chainEdges_length_two (vs : List String) :
    ∀ fp ∈ chainEdges vs, fp.length = 2 := by
  induction vs with
  | nil => simp [chainEdges]
  | cons a t ih =>
    cases t with
    | nil => simp [chainEdges]
    | cons b t =>
      intro fp hfp
      simp only [chainEdges, List.mem_cons] at hfp
      rcases hfp with rfl | h
      · rfl
      · exact ih fp h

theorem sources_chainEdges (vs : List String) :
    sources (chainEdges vs) = vs.dropLast := by
  induction vs with
  | nil => rfl
  | cons a t ih =>
    cases t with
    | nil => rfl
    | cons b t =>
      have ih' : List.filterMap (fun fp => fp[0]?) (chainEdges (b :: t))
          = (b :: t).dropLast := ih
      simp [chainEdges, sources, ih', List.dropLast]

theorem destinations_chainEdges (vs : List String) :
    destinations (chainEdges vs) = vs.tail := by
  induction vs with
  | nil => rfl
  | cons a t ih =>
    cases t with
    | nil => rfl
    | cons b t =>
      have ih' : List.filterMap (fun fp => fp[1]?) (chainEdges (b :: t))
          = (b :: t).tail := ih
      simp [chainEdges, destinations, ih']

theorem sources_perm {l₁ l₂ : List FlightPath} (h : l₁.Perm l₂) :
    (sources l₁).Perm (sources l₂) := h.filterMap _

theorem destinations_perm {l₁ l₂ : List FlightPath} (h : l₁.Perm l₂) :
    (destinations l₁).Perm (destinations l₂) := h.filterMap _

/-! ## The error of the first check -/

/-- C3: for an edge list whose edges all have two elements, and for every
enumeration order of the sets, `calculate` returns the error
"No primary sources could be identified" if and only if every identifier that
occurs as a source also occurs as a destination (the source set minus the
destination set is empty); in particular the empty edge list fails with this
error. -/
theorem calculate_noPrimarySource_iff (fuel : Nat) (srcOrder dstOrder : List String)
    (flightPaths : List FlightPath) (h2 : ∀ fp ∈ flightPaths, fp.length = 2)
    (hr : RangeOrder srcOrder dstOrder flightPaths) :
    (calculate fuel srcOrder dstOrder flightPaths
        = .error "No primary sources could be identified"
      ↔ ∀ k, k ∈ sources flightPaths → k ∈ destinations flightPaths) ∧
    (flightPaths = [] → calculate fuel srcOrder dstOrder flightPaths
        = .error "No primary sources could be identified") := by
  obtain ⟨st, hst⟩ := populate_isSome flightPaths h2 Maps.init
  have key : calculate fuel srcOrder dstOrder flightPaths
        = .error "No primary sources could be identified"
      ↔ ∀ k, k ∈ sources flightPaths → k ∈ destinations flightPaths := by
    rw [calculate_eq fuel srcOrder dstOrder flightPaths st hst hr,
      ← primarySet_eq_empty_iff, ← card_lt_one_iff]
    by_cases hc : (primarySet flightPaths).card < 1
    · simp [hc]
    · simp only [hc, if_false, iff_false]
      split
      · simp only [Outcome.error.injEq]; decide
      · split
        · simp only [Outcome.error.injEq]; decide
        · intro hw
          have := (walkAll_error _ _ _ _ _ hw).1
          revert this
          decide
  refine ⟨key, fun he => key.2 ?_⟩
  subst he
  intro k hk
  simp [sources] at hk

/-- Witness of C3 on the input of the test "No Primary Sources". -/
theorem calculate_noPrimarySource_iff_witness :
    (∀ fp ∈ [["SFO", "IAD"], ["IAD", "SFO"]], fp.length = 2) ∧
    RangeOrder ["IAD", "SFO"] ["SFO", "IAD"] [["SFO", "IAD"], ["IAD", "SFO"]] ∧
    ((calculate 3 ["IAD", "SFO"] ["SFO", "IAD"] [["SFO", "IAD"], ["IAD", "SFO"]]
        = .error "No primary sources could be identified"
      ↔ ∀ k, k ∈ sources [["SFO", "IAD"], ["IAD", "SFO"]] →
          k ∈ destinations [["SFO", "IAD"], ["IAD", "SFO"]]) ∧
    (([["SFO", "IAD"], ["IAD", "SFO"]] : List FlightPath) = [] →
      calculate 3 ["IAD", "SFO"] ["SFO", "IAD"] [["SFO", "IAD"], ["IAD", "SFO"]]
        = .error "No primary sources could be identified")) :=
  ⟨by decide, by decide,
    calculate_noPrimarySource_iff 3 ["IAD", "SFO"] ["SFO", "IAD"]
      [["SFO", "IAD"], ["IAD", "SFO"]] (by decide) (by decide)⟩

/-! ## The second and third check -/

/-- C4, the code at the input of the test "No Final Destinations": the input
has the primary source JFK and no final destination, and for every enumeration
order `calculate` returns the error of the third check, not
"No final destinations could be identified". -/
theorem calculate_noFinalDestinations_input (fuel : Nat) (srcOrder dstOrder : List String)
    (hr : RangeOrder srcOrder dstOrder
      [["SFO", "IAD"], ["JFK", "SFO"], ["IAD", "SFO"]]) :
    primarySet [["SFO", "IAD"], ["JFK", "SFO"], ["IAD", "SFO"]] = {"JFK"} ∧
    finalSet [["SFO", "IAD"], ["JFK", "SFO"], ["IAD", "SFO"]] = ∅ ∧
    calculate fuel srcOrder dstOrder [["SFO", "IAD"], ["JFK", "SFO"], ["IAD", "SFO"]]
      = .error "Mismatch in primary sources and final destinations" ∧
    calculate fuel srcOrder dstOrder [["SFO", "IAD"], ["JFK", "SFO"], ["IAD", "SFO"]]
      ≠ .error "No final destinations could be identified" := by
  obtain ⟨st, hst⟩ := populate_isSome
    [["SFO", "IAD"], ["JFK", "SFO"], ["IAD", "SFO"]] (by decide) Maps.init
  have h1 : primarySet [["SFO", "IAD"], ["JFK", "SFO"], ["IAD", "SFO"]] = {"JFK"} := by
    decide
  have h2 : finalSet [["SFO", "IAD"], ["JFK", "SFO"], ["IAD", "SFO"]] = ∅ := by
    decide
  have h3 : (destinations [["SFO", "IAD"], ["JFK", "SFO"], ["IAD", "SFO"]]).toFinset.card
      = 2 := by decide
  have h4 : calculate fuel srcOrder dstOrder
      [["SFO", "IAD"], ["JFK", "SFO"], ["IAD", "SFO"]]
      = .error "Mismatch in primary sources and final destinations" := by
    rw [calculate_eq fuel srcOrder dstOrder _ st hst hr, h1, h2, h3]
    simp
  refine ⟨h1, h2, h4, ?_⟩
  rw [h4]
  simp only [ne_eq, Outcome.error.injEq]
  decide

/-- The statement of `calculate_noFinalDestinations_input` in insertion order. -/
theorem calculate_noFinalDestinations_input_witness :
    RangeOrder ["SFO", "JFK", "IAD"] ["IAD", "SFO"]
      [["SFO", "IAD"], ["JFK", "SFO"], ["IAD", "SFO"]] ∧
    (primarySet [["SFO", "IAD"], ["JFK", "SFO"], ["IAD", "SFO"]] = {"JFK"} ∧
    finalSet [["SFO", "IAD"], ["JFK", "SFO"], ["IAD", "SFO"]] = ∅ ∧
    calculate 4 ["SFO", "JFK", "IAD"] ["IAD", "SFO"]
        [["SFO", "IAD"], ["JFK", "SFO"], ["IAD", "SFO"]]
      = .error "Mismatch in primary sources and final destinations" ∧
    calculate 4 ["SFO", "JFK", "IAD"] ["IAD", "SFO"]
        [["SFO", "IAD"], ["JFK", "SFO"], ["IAD", "SFO"]]
      ≠ .error "No final destinations could be identified") :=
  ⟨by decide, calculate_noFinalDestinations_input 4 ["SFO", "JFK", "IAD"] ["IAD", "SFO"]
    (by decide)⟩

/-- C5: for an edge list (of two-element edges) with at least one primary
source and at least one final destination, if the number of distinct primary
sources differs from the number of distinct final destinations then, for every
enumeration order, `calculate` returns the error
"Mismatch in primary sources and final destinations" and no result. -/
theorem calculate_countMismatch (fuel : Nat) (srcOrder dstOrder : List String)
    (flightPaths : List FlightPath) (h2 : ∀ fp ∈ flightPaths, fp.length = 2)
    (hr : RangeOrder srcOrder dstOrder flightPaths)
    (hp : (primarySet flightPaths).Nonempty) (_hfin : (finalSet flightPaths).Nonempty)
    (hne : (primarySet flightPaths).card ≠ (finalSet flightPaths).card) :
    calculate fuel srcOrder dstOrder flightPaths
        = .error "Mismatch in primary sources and final destinations" ∧
      ∀ r, calculate fuel srcOrder dstOrder flightPaths ≠ .ok r := by
  obtain ⟨st, hst⟩ := populate_isSome flightPaths h2 Maps.init
  have hpe : primarySet flightPaths ≠ ∅ := Finset.nonempty_iff_ne_empty.1 hp
  have h0 : ¬ (primarySet flightPaths).card < 1 := by rwa [card_lt_one_iff]
  have h1 := destinations_nonempty_of_primary flightPaths h2 hpe
  have h4 : calculate fuel srcOrder dstOrder flightPaths
      = .error "Mismatch in primary sources and final destinations" := by
    rw [calculate_eq fuel srcOrder dstOrder flightPaths st hst hr]
    simp only [h0, h1, if_false, hne, ne_eq, not_false_eq_true, if_true]
  exact ⟨h4, fun r hr' => by rw [h4] at hr'; exact absurd hr' (by simp)⟩

/-- Witness of C5 on the input of the test "Mismatch in Sources and Destinations". -/
theorem calculate_countMismatch_witness :
    (∀ fp ∈ [["SFO", "IAD"], ["JFK", "D"], ["JFK", "F"]], fp.length = 2) ∧
    RangeOrder ["JFK", "SFO"] ["F", "IAD", "D"]
      [["SFO", "IAD"], ["JFK", "D"], ["JFK", "F"]] ∧
    (primarySet [["SFO", "IAD"], ["JFK", "D"], ["JFK", "F"]]).Nonempty ∧
    (finalSet [["SFO", "IAD"], ["JFK", "D"], ["JFK", "F"]]).Nonempty ∧
    (primarySet [["SFO", "IAD"], ["JFK", "D"], ["JFK", "F"]]).card
      ≠ (finalSet [["SFO", "IAD"], ["JFK", "D"], ["JFK", "F"]]).card ∧
    (calculate 4 ["JFK", "SFO"] ["F", "IAD", "D"]
        [["SFO", "IAD"], ["JFK", "D"], ["JFK", "F"]]
        = .error "Mismatch in primary sources and final destinations" ∧
      ∀ r, calculate 4 ["JFK", "SFO"] ["F", "IAD", "D"]
        [["SFO", "IAD"], ["JFK", "D"], ["JFK", "F"]] ≠ .ok r) :=
  ⟨by decide, by decide, by decide, by decide, by decide,
    calculate_countMismatch 4 ["JFK", "SFO"] ["F", "IAD", "D"]
      [["SFO", "IAD"], ["JFK", "D"], ["JFK", "F"]]
      (by decide) (by decide) (by decide) (by decide) (by decide)⟩

/-- C6: for pairwise distinct identifiers `v0, ..., v(n-1)` with `n ≥ 1`, every
ordering of the cycle edges `(v0,v1), ..., (v(n-2),v(n-1)), (v(n-1),v0)` and
every enumeration order, `calculate` returns the error
"No primary sources could be identified", and not the cycle error. -/
theorem calculate_pure_cycle (fuel : Nat) (srcOrder dstOrder : List String)
    (v0 : String) (rest : List String) (flightPaths : List FlightPath)
    (_hd : (v0 :: rest).Nodup)
    (hp : flightPaths.Perm (chainEdges (v0 :: rest ++ [v0])))
    (hr : RangeOrder srcOrder dstOrder flightPaths) :
    calculate fuel srcOrder dstOrder flightPaths
        = .error "No primary sources could be identified" ∧
      calculate fuel srcOrder dstOrder flightPaths
        ≠ .error "Cycle detected in flight paths" := by
  have h2 : ∀ fp ∈ flightPaths, fp.length = 2 := fun fp hfp =>
    chainEdges_length_two _ fp (hp.mem_iff.1 hfp)
  obtain ⟨st, hst⟩ := populate_isSome flightPaths h2 Maps.init
  have hsub : ∀ k, k ∈ sources flightPaths → k ∈ destinations flightPaths := by
    intro k hk
    rw [(sources_perm hp).mem_iff, sources_chainEdges] at hk
    rw [(destinations_perm hp).mem_iff, destinations_chainEdges]
    have e1 : (v0 :: rest ++ [v0]).dropLast = v0 :: rest := by
      exact List.dropLast_concat
    rw [e1] at hk
    simp only [List.cons_append, List.tail_cons, List.mem_append, List.mem_singleton]
    rcases List.mem_cons.1 hk with h | h
    · exact Or.inr h
    · exact Or.inl h
  have h4 : calculate fuel srcOrder dstOrder flightPaths
      = .error "No primary sources could be identified" := by
    rw [calculate_eq fuel srcOrder dstOrder flightPaths st hst hr]
    have : (primarySet flightPaths).card < 1 := by
      rw [card_lt_one_iff, primarySet_eq_empty_iff]; exact hsub
    simp [this]
  refine ⟨h4, ?_⟩
  rw [h4]
  simp only [ne_eq, Outcome.error.injEq]
  decide

/-- Witness of C6 on the input of the test "Cycle in Flight Paths". -/
theorem calculate_pure_cycle_witness :
    ("SFO" :: ["IAD", "JFK"]).Nodup ∧
    List.Perm [["JFK", "SFO"], ["SFO", "IAD"], ["IAD", "JFK"]]
      (chainEdges ("SFO" :: ["IAD", "JFK"] ++ ["SFO"])) ∧
    RangeOrder ["IAD", "JFK", "SFO"] ["JFK", "SFO", "IAD"]
      [["JFK", "SFO"], ["SFO", "IAD"], ["IAD", "JFK"]] ∧
    (calculate 4 ["IAD", "JFK", "SFO"] ["JFK", "SFO", "IAD"]
        [["JFK", "SFO"], ["SFO", "IAD"], ["IAD", "JFK"]]
        = .error "No primary sources could be identified" ∧
      calculate 4 ["IAD", "JFK", "SFO"] ["JFK", "SFO", "IAD"]
        [["JFK", "SFO"], ["SFO", "IAD"], ["IAD", "JFK"]]
        ≠ .error "Cycle detected in flight paths") :=
  ⟨by decide, by decide, by decide,
    calculate_pure_cycle 4 ["IAD", "JFK", "SFO"] ["JFK", "SFO", "IAD"] "SFO"
      ["IAD", "JFK"] [["JFK", "SFO"], ["SFO", "IAD"], ["IAD", "JFK"]]
      (by decide) (by decide) (by decide)⟩

/-! ## Cyclic walks -/

theorem revisitFrom_empty_iff (flightPaths : List FlightPath) (s : String) :
    RevisitFrom (lastDest flightPaths) GoMap.empty s ↔ Revisits flightPaths s := by
  constructor
  · rintro ⟨j, x, hx, hor⟩
    rcases hor with h | ⟨i, hi, hix⟩
    · rw [GoMap.getB_empty] at h; exact absurd h (by simp)
    · exact ⟨i, j, x, hi, hix, hx⟩
  · rintro ⟨i, j, x, hi, hix, hx⟩
    exact ⟨j, x, hx, Or.inr ⟨i, hi, hix⟩⟩

theorem walk_cycle_iff_revisits (fuel : Nat) (flightPaths : List FlightPath) (st : Maps)
    (h : populate flightPaths Maps.init = some st) (hf : flightPaths.length < fuel)
    (s : String) :
    walk st.srcToDestMap fuel GoMap.empty s = .cycle ↔ Revisits flightPaths s := by
  obtain ⟨_, _, h3, _⟩ := populate_init flightPaths st h
  have hadj : st.srcToDestMap.get? = lastDest flightPaths := funext h3
  obtain ⟨w1, w2⟩ := walk_sound st.srcToDestMap fuel GoMap.empty s
  rw [hadj] at w1 w2
  rw [← revisitFrom_empty_iff]
  refine ⟨w1, fun hr => ?_⟩
  cases hw : walk st.srcToDestMap fuel GoMap.empty s with
  | cycle => rfl
  | outOfFuel => exact absurd hw (walk_enough_fuel fuel flightPaths st h hf s)
  | ended e => exact absurd hr (w2 e hw).1

theorem walk_ended_of_not_revisits (fuel : Nat) (flightPaths : List FlightPath)
    (st : Maps) (h : populate flightPaths Maps.init = some st)
    (hf : flightPaths.length < fuel) (s : String) (hn : ¬ Revisits flightPaths s) :
    ∃ e, walk st.srcToDestMap fuel GoMap.empty s = .ended e := by
  cases hw : walk st.srcToDestMap fuel GoMap.empty s with
  | cycle => exact absurd ((walk_cycle_iff_revisits fuel flightPaths st h hf s).1 hw) hn
  | outOfFuel => exact absurd hw (walk_enough_fuel fuel flightPaths st h hf s)
  | ended e => exact ⟨e, rfl⟩

theorem walk_fuel_indep (m : GoMap String) (f1 f2 : Nat) (vis : GoMap Bool) (cur : String)
    (h1 : walk m f1 vis cur ≠ .outOfFuel) (h2 : walk m f2 vis cur ≠ .outOfFuel) :
    walk m f1 vis cur = walk m f2 vis cur := by
  rcases Nat.le_total f1 f2 with hle | hle
  · exact (walk_mono m f1 vis cur h1 f2 hle).symm
  · exact walk_mono m f2 vis cur h2 f1 hle

/-- C9: for an edge list that passes validation (at least one primary source,
as many primary sources as final destinations), for every enumeration order and
every sufficient iteration budget, `calculate` returns the error
"Cycle detected in flight paths" if and only if the forward walk from some
primary source through the last-write-wins adjacency visits an identifier
twice; otherwise it returns a result. -/
theorem calculate_cycleDetected_iff (fuel : Nat) (srcOrder dstOrder : List String)
    (flightPaths : List FlightPath) (h2 : ∀ fp ∈ flightPaths, fp.length = 2)
    (hr : RangeOrder srcOrder dstOrder flightPaths)
    (hf : flightPaths.length < fuel)
    (hp : (primarySet flightPaths).Nonempty)
    (hc : (primarySet flightPaths).card = (finalSet flightPaths).card) :
    (calculate fuel srcOrder dstOrder flightPaths
        = .error "Cycle detected in flight paths"
      ↔ ∃ s ∈ primarySet flightPaths, Revisits flightPaths s) ∧
    ((¬ ∃ s ∈ primarySet flightPaths, Revisits flightPaths s) →
      ∃ r, calculate fuel srcOrder dstOrder flightPaths = .ok r) := by
  obtain ⟨st, hst⟩ := populate_isSome flightPaths h2 Maps.init
  have hpe : primarySet flightPaths ≠ ∅ := Finset.nonempty_iff_ne_empty.1 hp
  have h0 : ¬ (primarySet flightPaths).card < 1 := by rwa [card_lt_one_iff]
  have h1 := destinations_nonempty_of_primary flightPaths h2 hpe
  have hso : srcOrder.Perm st.sourceSet.keys := by
    unfold RangeOrder at hr; rw [hst] at hr; exact hr.1
  have heq : calculate fuel srcOrder dstOrder flightPaths
      = walkAll fuel st.srcToDestMap
          (srcOrder.filter (fun key => !st.destinationSet.getB key)) [] := by
    rw [calculate_eq fuel srcOrder dstOrder flightPaths st hst hr]
    rw [if_neg h0, if_neg h1, if_neg (not_not.2 hc)]
  have hmem := mem_primarySources flightPaths st hst srcOrder hso
  have hcyc := walk_cycle_iff_revisits fuel flightPaths st hst hf
  rw [heq]
  constructor
  · constructor
    · intro hw
      obtain ⟨_, s, hs, hsc⟩ := walkAll_error _ _ _ _ _ hw
      exact ⟨s, (hmem s).1 hs, (hcyc s).1 hsc⟩
    · rintro ⟨s, hs, hrev⟩
      exact walkAll_cycle _ _ _ _
        (fun t _ => walk_enough_fuel fuel flightPaths st hst hf t)
        ⟨s, (hmem s).2 hs, (hcyc s).2 hrev⟩
  · intro hn
    refine ⟨_, walkAll_ok _ _ _ _ (fun s hs => ?_)⟩
    exact walk_ended_of_not_revisits fuel flightPaths st hst hf s
      (fun hrev => hn ⟨s, (hmem s).1 hs, hrev⟩)

/-- Witness of C9: the walk from A in `(A,B),(B,C),(C,B),(D,E),(D,F)` runs into
the cycle B, C. -/
theorem calculate_cycleDetected_iff_witness :
    (∀ fp ∈ [["A", "B"], ["B", "C"], ["C", "B"], ["D", "E"], ["D", "F"]],
      fp.length = 2) ∧
    RangeOrder ["D", "C", "B", "A"] ["B", "C", "E", "F"]
      [["A", "B"], ["B", "C"], ["C", "B"], ["D", "E"], ["D", "F"]] ∧
    [["A", "B"], ["B", "C"], ["C", "B"], ["D", "E"], ["D", "F"]].length < 6 ∧
    (primarySet [["A", "B"], ["B", "C"], ["C", "B"], ["D", "E"], ["D", "F"]]).Nonempty ∧
    (primarySet [["A", "B"], ["B", "C"], ["C", "B"], ["D", "E"], ["D", "F"]]).card
      = (finalSet [["A", "B"], ["B", "C"], ["C", "B"], ["D", "E"], ["D", "F"]]).card ∧
    ((calculate 6 ["D", "C", "B", "A"] ["B", "C", "E", "F"]
        [["A", "B"], ["B", "C"], ["C", "B"], ["D", "E"], ["D", "F"]]
        = .error "Cycle detected in flight paths"
      ↔ ∃ s ∈ primarySet [["A", "B"], ["B", "C"], ["C", "B"], ["D", "E"], ["D", "F"]],
          Revisits [["A", "B"], ["B", "C"], ["C", "B"], ["D", "E"], ["D", "F"]] s) ∧
    ((¬ ∃ s ∈ primarySet [["A", "B"], ["B", "C"], ["C", "B"], ["D", "E"], ["D", "F"]],
          Revisits [["A", "B"], ["B", "C"], ["C", "B"], ["D", "E"], ["D", "F"]] s) →
      ∃ r, calculate 6 ["D", "C", "B", "A"] ["B", "C", "E", "F"]
        [["A", "B"], ["B", "C"], ["C", "B"], ["D", "E"], ["D", "F"]] = .ok r)) :=
  ⟨by decide, by decide, by decide, by decide, by decide,
    calculate_cycleDetected_iff 6 ["D", "C", "B", "A"] ["B", "C", "E", "F"]
      [["A", "B"], ["B", "C"], ["C", "B"], ["D", "E"], ["D", "F"]]
      (by decide) (by decide) (by decide) (by decide) (by decide)⟩

/-- C7 as stated fails: the edge list `(A,B),(C,D),(D,C)` contains the directed
cycle C, D, C, and `calculate` returns the result `[[A,B]]`. -/
theorem calculate_cycle_anywhere_counterexample :
    (∀ fp ∈ [["A", "B"], ["C", "D"], ["D", "C"]], fp.length = 2) ∧
    HasCycle [["A", "B"], ["C", "D"], ["D", "C"]] ∧
    RangeOrder ["A", "C", "D"] ["B", "D", "C"] [["A", "B"], ["C", "D"], ["D", "C"]] ∧
    calculate 4 ["A", "C", "D"] ["B", "D", "C"] [["A", "B"], ["C", "D"], ["D", "C"]]
      = .ok [["A", "B"]] := by
  refine ⟨by decide, ⟨"C", ?_⟩, by decide, by decide⟩
  exact Relation.TransGen.tail
    (Relation.TransGen.single ⟨["C", "D"], by decide, rfl, rfl⟩)
    ⟨["D", "C"], by decide, rfl, rfl⟩

/-- C7 amended: for an edge list (of two-element edges) that has no primary
source, or in which the forward walk from some primary source through the
last-write-wins adjacency visits an identifier twice, `calculate` returns an
error and no result, for every enumeration order and every sufficient
iteration budget. -/
theorem calculate_cycle_on_walk_error (fuel : Nat) (srcOrder dstOrder : List String)
    (flightPaths : List FlightPath) (h2 : ∀ fp ∈ flightPaths, fp.length = 2)
    (hr : RangeOrder srcOrder dstOrder flightPaths)
    (hf : flightPaths.length < fuel)
    (hcyc : primarySet flightPaths = ∅
      ∨ ∃ s ∈ primarySet flightPaths, Revisits flightPaths s) :
    (∃ msg, calculate fuel srcOrder dstOrder flightPaths = .error msg) ∧
      ∀ r, calculate fuel srcOrder dstOrder flightPaths ≠ .ok r := by
  obtain ⟨st, hst⟩ := populate_isSome flightPaths h2 Maps.init
  have herr : ∃ msg, calculate fuel srcOrder dstOrder flightPaths = .error msg := by
    rw [calculate_eq fuel srcOrder dstOrder flightPaths st hst hr]
    rcases hcyc with he | ⟨s, hs, hrev⟩
    · rw [if_pos ((card_lt_one_iff _).2 he)]
      exact ⟨_, rfl⟩
    · have hpe : primarySet flightPaths ≠ ∅ := Finset.ne_empty_of_mem hs
      rw [if_neg (by rwa [card_lt_one_iff]),
        if_neg (destinations_nonempty_of_primary flightPaths h2 hpe)]
      split
      · exact ⟨_, rfl⟩
      · have hso : srcOrder.Perm st.sourceSet.keys := by
          unfold RangeOrder at hr; rw [hst] at hr; exact hr.1
        refine ⟨_, walkAll_cycle _ _ _ _
          (fun t _ => walk_enough_fuel fuel flightPaths st hst hf t)
          ⟨s, (mem_primarySources flightPaths st hst srcOrder hso s).2 hs, ?_⟩⟩
        exact (walk_cycle_iff_revisits fuel flightPaths st hst hf s).2 hrev
  obtain ⟨msg, hmsg⟩ := herr
  exact ⟨⟨msg, hmsg⟩, fun r hok => by rw [hmsg] at hok; exact absurd hok (by simp)⟩

/-- Witness of C7 amended: a chain from the primary source S into the cycle A, B. -/
theorem calculate_cycle_on_walk_error_witness :
    (∀ fp ∈ [["S", "A"], ["A", "B"], ["B", "A"], ["T", "U"], ["T", "V"]],
      fp.length = 2) ∧
    RangeOrder ["S", "A", "B", "T"] ["A", "B", "U", "V"]
      [["S", "A"], ["A", "B"], ["B", "A"], ["T", "U"], ["T", "V"]] ∧
    [["S", "A"], ["A", "B"], ["B", "A"], ["T", "U"], ["T", "V"]].length < 6 ∧
    (primarySet [["S", "A"], ["A", "B"], ["B", "A"], ["T", "U"], ["T", "V"]] = ∅
      ∨ ∃ s ∈ primarySet [["S", "A"], ["A", "B"], ["B", "A"], ["T", "U"], ["T", "V"]],
          Revisits [["S", "A"], ["A", "B"], ["B", "A"], ["T", "U"], ["T", "V"]] s) ∧
    ((∃ msg, calculate 6 ["S", "A", "B", "T"] ["A", "B", "U", "V"]
        [["S", "A"], ["A", "B"], ["B", "A"], ["T", "U"], ["T", "V"]] = .error msg) ∧
      ∀ r, calculate 6 ["S", "A", "B", "T"] ["A", "B", "U", "V"]
        [["S", "A"], ["A", "B"], ["B", "A"], ["T", "U"], ["T", "V"]] ≠ .ok r) :=
  have hrev : primarySet [["S", "A"], ["A", "B"], ["B", "A"], ["T", "U"], ["T", "V"]] = ∅
      ∨ ∃ s ∈ primarySet [["S", "A"], ["A", "B"], ["B", "A"], ["T", "U"], ["T", "V"]],
          Revisits [["S", "A"], ["A", "B"], ["B", "A"], ["T", "U"], ["T", "V"]] s :=
    Or.inr ⟨"S", by decide, 1, 3, "A", by decide, by decide, by decide⟩
  ⟨by decide, by decide, by decide, hrev,
    calculate_cycle_on_walk_error 6 ["S", "A", "B", "T"] ["A", "B", "U", "V"]
      [["S", "A"], ["A", "B"], ["B", "A"], ["T", "U"], ["T", "V"]]
      (by decide) (by decide) (by decide) hrev⟩

/-! ## Independence of the enumeration order -/

theorem walkEnd_fuel_indep (m : GoMap String) (f1 f2 : Nat) (s : String)
    (h1 : walk m f1 GoMap.empty s ≠ .outOfFuel)
    (h2 : walk m f2 GoMap.empty s ≠ .outOfFuel) :
    walkEnd m f1 s = walkEnd m f2 s := by
  unfold walkEnd
  rw [walk_fuel_indep m f1 f2 GoMap.empty s h1 h2]

/-- C10: for an edge list (of two-element edges), any two runs of `calculate`,
whatever the enumeration orders of the two sets and whatever the (sufficient)
iteration budgets, either both fail with the same error message or both
succeed with results that are permutations of each other. -/
theorem calculate_order_independent (fuel₁ fuel₂ : Nat)
    (srcOrder₁ dstOrder₁ srcOrder₂ dstOrder₂ : List String)
    (flightPaths : List FlightPath) (h2 : ∀ fp ∈ flightPaths, fp.length = 2)
    (hr₁ : RangeOrder srcOrder₁ dstOrder₁ flightPaths)
    (hr₂ : RangeOrder srcOrder₂ dstOrder₂ flightPaths)
    (hf₁ : flightPaths.length < fuel₁) (hf₂ : flightPaths.length < fuel₂) :
    (∃ msg, calculate fuel₁ srcOrder₁ dstOrder₁ flightPaths = .error msg ∧
        calculate fuel₂ srcOrder₂ dstOrder₂ flightPaths = .error msg) ∨
    (∃ r₁ r₂, calculate fuel₁ srcOrder₁ dstOrder₁ flightPaths = .ok r₁ ∧
        calculate fuel₂ srcOrder₂ dstOrder₂ flightPaths = .ok r₂ ∧ r₁.Perm r₂) := by
  obtain ⟨st, hst⟩ := populate_isSome flightPaths h2 Maps.init
  have hso₁ : srcOrder₁.Perm st.sourceSet.keys := by
    unfold RangeOrder at hr₁; rw [hst] at hr₁; exact hr₁.1
  have hso₂ : srcOrder₂.Perm st.sourceSet.keys := by
    unfold RangeOrder at hr₂; rw [hst] at hr₂; exact hr₂.1
  rw [calculate_eq fuel₁ srcOrder₁ dstOrder₁ flightPaths st hst hr₁,
    calculate_eq fuel₂ srcOrder₂ dstOrder₂ flightPaths st hst hr₂]
  split
  · exact Or.inl ⟨_, rfl, rfl⟩
  · split
    · exact Or.inl ⟨_, rfl, rfl⟩
    · split
      · exact Or.inl ⟨_, rfl, rfl⟩
      · have hperm : (srcOrder₁.filter (fun key => !st.destinationSet.getB key)).Perm
            (srcOrder₂.filter (fun key => !st.destinationSet.getB key)) :=
          (hso₁.trans hso₂.symm).filter _
        have hfu₁ := walk_enough_fuel fuel₁ flightPaths st hst hf₁
        have hfu₂ := walk_enough_fuel fuel₂ flightPaths st hst hf₂
        have hc₁ := walk_cycle_iff_revisits fuel₁ flightPaths st hst hf₁
        have hc₂ := walk_cycle_iff_revisits fuel₂ flightPaths st hst hf₂
        by_cases hex : ∃ s ∈ srcOrder₁.filter (fun key => !st.destinationSet.getB key),
            Revisits flightPaths s
        · obtain ⟨s, hs, hrev⟩ := hex
          left
          refine ⟨_, walkAll_cycle _ _ _ _ (fun t _ => hfu₁ t) ⟨s, hs, (hc₁ s).2 hrev⟩,
            walkAll_cycle _ _ _ _ (fun t _ => hfu₂ t)
              ⟨s, hperm.mem_iff.1 hs, (hc₂ s).2 hrev⟩⟩
        · right
          have e₁ := walkAll_ok fuel₁ st.srcToDestMap
            (srcOrder₁.filter (fun key => !st.destinationSet.getB key)) []
            (fun s hs => walk_ended_of_not_revisits fuel₁ flightPaths st hst hf₁ s
              (fun hrev => hex ⟨s, hs, hrev⟩))
          have e₂ := walkAll_ok fuel₂ st.srcToDestMap
            (srcOrder₂.filter (fun key => !st.destinationSet.getB key)) []
            (fun s hs => walk_ended_of_not_revisits fuel₂ flightPaths st hst hf₂ s
              (fun hrev => hex ⟨s, hperm.mem_iff.2 hs, hrev⟩))
          refine ⟨_, _, e₁, e₂, ?_⟩
          simp only [List.nil_append]
          have hmap : List.map (fun s => [s, walkEnd st.srcToDestMap fuel₁ s])
                (srcOrder₂.filter (fun key => !st.destinationSet.getB key))
              = List.map (fun s => [s, walkEnd st.srcToDestMap fuel₂ s])
                (srcOrder₂.filter (fun key => !st.destinationSet.getB key)) :=
            List.map_congr_left (fun s _ => by
              rw [walkEnd_fuel_indep st.srcToDestMap fuel₁ fuel₂ s (hfu₁ s) (hfu₂ s)])
          rw [← hmap]
          exact hperm.map _

/-- Witness of C10: two enumeration orders on the input of the test
"Multiple Sources Destinations". -/
theorem calculate_order_independent_witness :
    (∀ fp ∈ [["IND", "EWR"], ["SFO", "ATL"], ["GSO", "IND"], ["ATL", "GSO"],
      ["IAD", "JFK"]], fp.length = 2) ∧
    RangeOrder ["IND", "SFO", "GSO", "ATL", "IAD"] ["EWR", "ATL", "IND", "GSO", "JFK"]
      [["IND", "EWR"], ["SFO", "ATL"], ["GSO", "IND"], ["ATL", "GSO"], ["IAD", "JFK"]] ∧
    RangeOrder ["IAD", "ATL", "GSO", "SFO", "IND"] ["JFK", "GSO", "IND", "ATL", "EWR"]
      [["IND", "EWR"], ["SFO", "ATL"], ["GSO", "IND"], ["ATL", "GSO"], ["IAD", "JFK"]] ∧
    [["IND", "EWR"], ["SFO", "ATL"], ["GSO", "IND"], ["ATL", "GSO"],
      ["IAD", "JFK"]].length < 6 ∧
    [["IND", "EWR"], ["SFO", "ATL"], ["GSO", "IND"], ["ATL", "GSO"],
      ["IAD", "JFK"]].length < 9 ∧
    ((∃ msg, calculate 6 ["IND", "SFO", "GSO", "ATL", "IAD"]
          ["EWR", "ATL", "IND", "GSO", "JFK"]
          [["IND", "EWR"], ["SFO", "ATL"], ["GSO", "IND"], ["ATL", "GSO"], ["IAD", "JFK"]]
          = .error msg ∧
        calculate 9 ["IAD", "ATL", "GSO", "SFO", "IND"]
          ["JFK", "GSO", "IND", "ATL", "EWR"]
          [["IND", "EWR"], ["SFO", "ATL"], ["GSO", "IND"], ["ATL", "GSO"], ["IAD", "JFK"]]
          = .error msg) ∨
    (∃ r₁ r₂, calculate 6 ["IND", "SFO", "GSO", "ATL", "IAD"]
          ["EWR", "ATL", "IND", "GSO", "JFK"]
          [["IND", "EWR"], ["SFO", "ATL"], ["GSO", "IND"], ["ATL", "GSO"], ["IAD", "JFK"]]
          = .ok r₁ ∧
        calculate 9 ["IAD", "ATL", "GSO", "SFO", "IND"]
          ["JFK", "GSO", "IND", "ATL", "EWR"]
          [["IND", "EWR"], ["SFO", "ATL"], ["GSO", "IND"], ["ATL", "GSO"], ["IAD", "JFK"]]
          = .ok r₂ ∧ r₁.Perm r₂)) :=
  ⟨by decide, by decide, by decide, by decide, by decide,
    calculate_order_independent 6 9 ["IND", "SFO", "GSO", "ATL", "IAD"]
      ["EWR", "ATL", "IND", "GSO", "JFK"] ["IAD", "ATL", "GSO", "SFO", "IND"]
      ["JFK", "GSO", "IND", "ATL", "EWR"]
      [["IND", "EWR"], ["SFO", "ATL"], ["GSO", "IND"], ["ATL", "GSO"], ["IAD", "JFK"]]
      (by decide) (by decide) (by decide) (by decide) (by decide)⟩

/-! ## Branching -/

theorem filterMap_nodup_inj (f : FlightPath → Option String) (l : List FlightPath)
    (hn : (l.filterMap f).Nodup) (x y : FlightPath) (hx : x ∈ l) (hy : y ∈ l)
    (a : String) (hfx : f x = some a) (hfy : f y = some a) : x = y := by
  induction l with
  | nil => exact absurd hx (List.not_mem_nil x)
  | cons z t ih =>
    cases hz : f z with
    | none =>
      rw [List.filterMap_cons_none hz] at hn
      have hxt : x ∈ t := by
        rcases List.mem_cons.1 hx with rfl | h
        · rw [hz] at hfx; exact absurd hfx (by simp)
        · exact h
      have hyt : y ∈ t := by
        rcases List.mem_cons.1 hy with rfl | h
        · rw [hz] at hfy; exact absurd hfy (by simp)
        · exact h
      exact ih hn hxt hyt
    | some b =>
      rw [List.filterMap_cons_some hz, List.nodup_cons] at hn
      rcases List.mem_cons.1 hx with rfl | hxt
      · rcases List.mem_cons.1 hy with rfl | hyt
        · rfl
        · exfalso
          apply hn.1
          rw [hfx] at hz
          cases hz
          exact List.mem_filterMap.2 ⟨y, hyt, hfy⟩
      · rcases List.mem_cons.1 hy with rfl | hyt
        · exfalso
          apply hn.1
          rw [hfy] at hz
          cases hz
          exact List.mem_filterMap.2 ⟨x, hxt, hfx⟩
        · exact ih hn.2 hxt hyt

theorem not_nodup_sources_of_fork (flightPaths : List FlightPath)
    (h : Fork flightPaths) : ¬ (sources flightPaths).Nodup := by
  obtain ⟨a, b, c, hbc, ⟨x, hx, hx0, hx1⟩, ⟨y, hy, hy0, hy1⟩⟩ := h
  intro hn
  have hxy := filterMap_nodup_inj (fun fp => fp[0]?) flightPaths hn x y hx hy a hx0 hy0
  subst hxy
  rw [hx1] at hy1
  exact hbc (Option.some.inj hy1)

theorem not_nodup_destinations_of_join (flightPaths : List FlightPath)
    (h : Join flightPaths) : ¬ (destinations flightPaths).Nodup := by
  obtain ⟨a, b, c, hab, ⟨x, hx, hx0, hx1⟩, ⟨y, hy, hy0, hy1⟩⟩ := h
  intro hn
  have hxy := filterMap_nodup_inj (fun fp => fp[1]?) flightPaths hn x y hx hy c hx1 hy1
  subst hxy
  rw [hx0] at hy0
  exact hab (Option.some.inj hy0)

theorem length_sources (flightPaths : List FlightPath)
    (h2 : ∀ fp ∈ flightPaths, fp.length = 2) :
    (sources flightPaths).length = flightPaths.length := by
  induction flightPaths with
  | nil => rfl
  | cons fp rest ih =>
    have hl := h2 fp (List.mem_cons_self _ _)
    have ih' := ih (fun fp hfp => h2 fp (List.mem_cons_of_mem _ hfp))
    match fp, hl with
    | [a, b], _ =>
      simp only [sources] at ih' ⊢
      simp [ih']

theorem length_destinations (flightPaths : List FlightPath)
    (h2 : ∀ fp ∈ flightPaths, fp.length = 2) :
    (destinations flightPaths).length = flightPaths.length := by
  induction flightPaths with
  | nil => rfl
  | cons fp rest ih =>
    have hl := h2 fp (List.mem_cons_self _ _)
    have ih' := ih (fun fp hfp => h2 fp (List.mem_cons_of_mem _ hfp))
    match fp, hl with
    | [a, b], _ =>
      simp only [destinations] at ih' ⊢
      simp [ih']

theorem toFinset_card_lt (l : List String) (h : ¬ l.Nodup) :
    l.toFinset.card < l.length := by
  have hle := List.toFinset_card_le l
  have hne : l.toFinset.card ≠ l.length := fun he =>
    h (Multiset.coe_nodup.1
      (Multiset.toFinset_card_eq_card_iff_nodup.1 (by simpa using he)))
  omega

/-- The two counts differ by as much as the numbers of distinct sources and
distinct destinations do. -/
theorem card_primarySet_add (flightPaths : List FlightPath) :
    (primarySet flightPaths).card + (destinations flightPaths).toFinset.card
      = (finalSet flightPaths).card + (sources flightPaths).toFinset.card := by
  have h1 := Finset.card_sdiff_add_card_inter
    (sources flightPaths).toFinset (destinations flightPaths).toFinset
  have h2 := Finset.card_sdiff_add_card_inter
    (destinations flightPaths).toFinset (sources flightPaths).toFinset
  rw [Finset.inter_comm] at h2
  unfold primarySet finalSet
  omega

/-- C8 as stated fails: in `(A,X),(A,B),(C,B)` the source A has two
destinations and the destination B has two sources, and `calculate` returns
the result `[[A,B],[C,B]]`. -/
theorem calculate_branching_counterexample :
    (∀ fp ∈ [["A", "X"], ["A", "B"], ["C", "B"]], fp.length = 2) ∧
    Fork [["A", "X"], ["A", "B"], ["C", "B"]] ∧
    Join [["A", "X"], ["A", "B"], ["C", "B"]] ∧
    RangeOrder ["A", "C"] ["X", "B"] [["A", "X"], ["A", "B"], ["C", "B"]] ∧
    calculate 4 ["A", "C"] ["X", "B"] [["A", "X"], ["A", "B"], ["C", "B"]]
      = .ok [["A", "B"], ["C", "B"]] := by
  refine ⟨by decide, ?_, ?_, by decide, by decide⟩
  · exact ⟨"A", "X", "B", by decide, ⟨["A", "X"], by decide, rfl, rfl⟩,
      ⟨["A", "B"], by decide, rfl, rfl⟩⟩
  · exact ⟨"A", "C", "B", by decide, ⟨["A", "B"], by decide, rfl, rfl⟩,
      ⟨["C", "B"], by decide, rfl, rfl⟩⟩

theorem edge_mem (flightPaths : List FlightPath)
    (h2 : ∀ fp ∈ flightPaths, fp.length = 2) (a b : String)
    (h : Edge flightPaths a b) : [a, b] ∈ flightPaths := by
  obtain ⟨fp, hfp, h0, h1⟩ := h
  have hl := h2 fp hfp
  match fp, hl, hfp, h0, h1 with
  | [x, y], _, hfp, h0, h1 =>
    simp only [List.getElem?_cons_zero, List.getElem?_cons_succ,
      Option.some.injEq] at h0 h1
    subst h0 h1
    exact hfp

theorem card_sources_eq_image (flightPaths : List FlightPath)
    (h2 : ∀ fp ∈ flightPaths, fp.length = 2) :
    (sources flightPaths).toFinset.card
      = (flightPaths.toFinset.image (fun fp : FlightPath => fp[0]?)).card := by
  rw [← Finset.card_image_of_injective _ (Option.some_injective String)]
  congr 1
  ext o
  simp only [Finset.mem_image, List.mem_toFinset, sources, List.mem_filterMap]
  constructor
  · rintro ⟨k, ⟨fp, hfp, hk⟩, rfl⟩
    exact ⟨fp, hfp, hk⟩
  · rintro ⟨fp, hfp, rfl⟩
    have hl := h2 fp hfp
    match fp, hl, hfp with
    | [a, b], _, hfp => exact ⟨a, ⟨[a, b], hfp, rfl⟩, rfl⟩

theorem card_destinations_eq_image (flightPaths : List FlightPath)
    (h2 : ∀ fp ∈ flightPaths, fp.length = 2) :
    (destinations flightPaths).toFinset.card
      = (flightPaths.toFinset.image (fun fp : FlightPath => fp[1]?)).card := by
  rw [← Finset.card_image_of_injective _ (Option.some_injective String)]
  congr 1
  ext o
  simp only [Finset.mem_image, List.mem_toFinset, destinations, List.mem_filterMap]
  constructor
  · rintro ⟨k, ⟨fp, hfp, hk⟩, rfl⟩
    exact ⟨fp, hfp, hk⟩
  · rintro ⟨fp, hfp, rfl⟩
    have hl := h2 fp hfp
    match fp, hl, hfp with
    | [a, b], _, hfp => exact ⟨b, ⟨[a, b], hfp, rfl⟩, rfl⟩

/-- Without a join, distinct edges have distinct destinations. -/
theorem card_destinations_of_not_join (flightPaths : List FlightPath)
    (h2 : ∀ fp ∈ flightPaths, fp.length = 2) (hj : ¬ Join flightPaths) :
    (destinations flightPaths).toFinset.card = flightPaths.toFinset.card := by
  rw [card_destinations_eq_image flightPaths h2, Finset.card_image_iff]
  intro fp hfp fp' hfp' he
  rw [Finset.mem_coe, List.mem_toFinset] at hfp hfp'
  have hl := h2 fp hfp
  have hl' := h2 fp' hfp'
  match fp, hl, hfp, fp', hl', hfp', he with
  | [a, c], _, hfp, [b, c'], _, hfp', he =>
    simp only [List.getElem?_cons_zero, List.getElem?_cons_succ,
      Option.some.injEq] at he
    subst he
    by_contra hne
    have hab : a ≠ b := fun h => hne (by rw [h])
    exact hj ⟨a, b, c, hab, ⟨[a, c], hfp, rfl, rfl⟩, ⟨[b, c], hfp', rfl, rfl⟩⟩

/-- Without a fork, distinct edges have distinct sources. -/
theorem card_sources_of_not_fork (flightPaths : List FlightPath)
    (h2 : ∀ fp ∈ flightPaths, fp.length = 2) (hk : ¬ Fork flightPaths) :
    (sources flightPaths).toFinset.card = flightPaths.toFinset.card := by
  rw [card_sources_eq_image flightPaths h2, Finset.card_image_iff]
  intro fp hfp fp' hfp' he
  rw [Finset.mem_coe, List.mem_toFinset] at hfp hfp'
  have hl := h2 fp hfp
  have hl' := h2 fp' hfp'
  match fp, hl, hfp, fp', hl', hfp', he with
  | [a, b], _, hfp, [a', c], _, hfp', he =>
    simp only [List.getElem?_cons_zero, Option.some.injEq] at he
    subst he
    by_contra hne
    have hbc : b ≠ c := fun h => hne (by rw [h])
    exact hk ⟨a, b, c, hbc, ⟨[a, b], hfp, rfl, rfl⟩, ⟨[a, c], hfp', rfl, rfl⟩⟩

/-- With a fork, there are fewer distinct sources than distinct edges. -/
theorem card_sources_of_fork (flightPaths : List FlightPath)
    (h2 : ∀ fp ∈ flightPaths, fp.length = 2) (hk : Fork flightPaths) :
    (sources flightPaths).toFinset.card < flightPaths.toFinset.card := by
  rw [card_sources_eq_image flightPaths h2]
  apply lt_of_le_of_ne Finset.card_image_le
  intro he
  have hinj := Finset.card_image_iff.1 he
  obtain ⟨a, b, c, hbc, hab, hac⟩ := hk
  have h1 := edge_mem flightPaths h2 a b hab
  have h3 := edge_mem flightPaths h2 a c hac
  have heq : [a, b] = [a, c] :=
    @hinj [a, b] (by simpa using h1) [a, c] (by simpa using h3) rfl
  simp only [List.cons.injEq, and_true, true_and] at heq
  exact hbc heq

/-- With a join, there are fewer distinct destinations than distinct edges. -/
theorem card_destinations_of_join (flightPaths : List FlightPath)
    (h2 : ∀ fp ∈ flightPaths, fp.length = 2) (hj : Join flightPaths) :
    (destinations flightPaths).toFinset.card < flightPaths.toFinset.card := by
  rw [card_destinations_eq_image flightPaths h2]
  apply lt_of_le_of_ne Finset.card_image_le
  intro he
  have hinj := Finset.card_image_iff.1 he
  obtain ⟨a, b, c, hab, hac, hbc⟩ := hj
  have h1 := edge_mem flightPaths h2 a c hac
  have h3 := edge_mem flightPaths h2 b c hbc
  have heq : [a, c] = [b, c] :=
    @hinj [a, c] (by simpa using h1) [b, c] (by simpa using h3) rfl
  simp only [List.cons.injEq, and_true, true_and] at heq
  exact hab heq

/-- C8 amended: branching of one kind only is an error.  For an edge list (of
two-element edges) in which some source has two different destinations and no
destination has two different sources, or some destination has two different
sources and no source has two different destinations, `calculate` returns an
error and no result, for every enumeration order. -/
theorem calculate_one_sided_branching_error (fuel : Nat)
    (srcOrder dstOrder : List String) (flightPaths : List FlightPath)
    (h2 : ∀ fp ∈ flightPaths, fp.length = 2)
    (hr : RangeOrder srcOrder dstOrder flightPaths)
    (hb : (Fork flightPaths ∧ ¬ Join flightPaths)
      ∨ (Join flightPaths ∧ ¬ Fork flightPaths)) :
    (∃ msg, calculate fuel srcOrder dstOrder flightPaths = .error msg) ∧
      ∀ r, calculate fuel srcOrder dstOrder flightPaths ≠ .ok r := by
  obtain ⟨st, hst⟩ := populate_isSome flightPaths h2 Maps.init
  have hadd := card_primarySet_add flightPaths
  have hne : (primarySet flightPaths).card ≠ (finalSet flightPaths).card := by
    rcases hb with ⟨hfork, hnj⟩ | ⟨hjoin, hnf⟩
    · have h1 := card_sources_of_fork flightPaths h2 hfork
      have h3 := card_destinations_of_not_join flightPaths h2 hnj
      omega
    · have h1 := card_destinations_of_join flightPaths h2 hjoin
      have h3 := card_sources_of_not_fork flightPaths h2 hnf
      omega
  have herr : ∃ msg, calculate fuel srcOrder dstOrder flightPaths = .error msg := by
    rw [calculate_eq fuel srcOrder dstOrder flightPaths st hst hr]
    by_cases h0 : (primarySet flightPaths).card < 1
    · rw [if_pos h0]
      exact ⟨_, rfl⟩
    · by_cases h1 : (destinations flightPaths).toFinset.card < 1
      · rw [if_neg h0, if_pos h1]
        exact ⟨_, rfl⟩
      · rw [if_neg h0, if_neg h1, if_pos hne]
        exact ⟨_, rfl⟩
  obtain ⟨msg, hmsg⟩ := herr
  exact ⟨⟨msg, hmsg⟩, fun r hok => by rw [hmsg] at hok; exact absurd hok (by simp)⟩

/-- The edge list `(A,B),(A,C),(A,B)` has a fork and no join. -/
theorem fork_without_join_example :
    Fork [["A", "B"], ["A", "C"], ["A", "B"]] ∧
      ¬ Join [["A", "B"], ["A", "C"], ["A", "B"]] := by
  constructor
  · exact ⟨"A", "B", "C", by decide, ⟨["A", "B"], by decide, rfl, rfl⟩,
      ⟨["A", "C"], by decide, rfl, rfl⟩⟩
  · rintro ⟨a, b, c, hab, ⟨fp, hfp, h0, _⟩, ⟨fp', hfp', h0', _⟩⟩
    have ha : a = "A" := by
      simp only [List.mem_cons, List.mem_singleton, List.not_mem_nil, or_false] at hfp
      rcases hfp with rfl | rfl | rfl <;> simpa using h0.symm
    have hb : b = "A" := by
      simp only [List.mem_cons, List.mem_singleton, List.not_mem_nil, or_false] at hfp'
      rcases hfp' with rfl | rfl | rfl <;> simpa using h0'.symm
    exact hab (ha.trans hb.symm)

/-- Witness of C8 amended: in `(A,B),(A,C),(A,B)` the source A has the two
destinations B and C, no destination has two sources, and sources and
destinations both repeat. -/
theorem calculate_one_sided_branching_error_witness :
    (∀ fp ∈ [["A", "B"], ["A", "C"], ["A", "B"]], fp.length = 2) ∧
    RangeOrder ["A"] ["C", "B"] [["A", "B"], ["A", "C"], ["A", "B"]] ∧
    ((Fork [["A", "B"], ["A", "C"], ["A", "B"]] ∧
        ¬ Join [["A", "B"], ["A", "C"], ["A", "B"]])
      ∨ (Join [["A", "B"], ["A", "C"], ["A", "B"]] ∧
        ¬ Fork [["A", "B"], ["A", "C"], ["A", "B"]])) ∧
    ((∃ msg, calculate 0 ["A"] ["C", "B"]
        [["A", "B"], ["A", "C"], ["A", "B"]] = .error msg) ∧
      ∀ r, calculate 0 ["A"] ["C", "B"]
        [["A", "B"], ["A", "C"], ["A", "B"]] ≠ .ok r) :=
  ⟨by decide, by decide, Or.inl fork_without_join_example,
    calculate_one_sided_branching_error 0 ["A"] ["C", "B"]
      [["A", "B"], ["A", "C"], ["A", "B"]] (by decide) (by decide)
      (Or.inl fork_without_join_example)⟩

/-! ## Disjoint chains -/

theorem sources_append (l₁ l₂ : List FlightPath) :
    sources (l₁ ++ l₂) = sources l₁ ++ sources l₂ :=
  List.filterMap_append l₁ l₂ _

theorem destinations_append (l₁ l₂ : List FlightPath) :
    destinations (l₁ ++ l₂) = destinations l₁ ++ destinations l₂ :=
  List.filterMap_append l₁ l₂ _

theorem sources_chains (paths : List (List String)) :
    sources (paths.map chainEdges).flatten = (paths.map List.dropLast).flatten := by
  induction paths with
  | nil => rfl
  | cons p ps ih =>
    simp only [List.map_cons, List.flatten_cons, sources_append, sources_chainEdges, ih]

theorem destinations_chains (paths : List (List String)) :
    destinations (paths.map chainEdges).flatten = (paths.map List.tail).flatten := by
  induction paths with
  | nil => rfl
  | cons p ps ih =>
    simp only [List.map_cons, List.flatten_cons, destinations_append,
      destinations_chainEdges, ih]

theorem heads_tails_perm (paths : List (List String)) (hne : ∀ p ∈ paths, p ≠ []) :
    ((paths.map (fun p => p.headD "")) ++ (paths.map List.tail).flatten).Perm
      paths.flatten := by
  induction paths with
  | nil => exact List.Perm.refl _
  | cons p ps ih =>
    have ih' := ih (fun q hq => hne q (List.mem_cons_of_mem _ hq))
    have hp := hne p (List.mem_cons_self _ _)
    match p, hp with
    | a :: t, _ =>
      simp only [List.map_cons, List.flatten_cons, List.headD_cons, List.tail_cons,
        List.cons_append]
      exact List.Perm.cons a
        ((List.perm_append_comm_assoc _ _ _).trans (List.Perm.append_left t ih'))

theorem dropLasts_lasts_perm (paths : List (List String)) (hne : ∀ p ∈ paths, p ≠ []) :
    ((paths.map List.dropLast).flatten ++ (paths.map (fun p => p.getLastD ""))).Perm
      paths.flatten := by
  induction paths with
  | nil => exact List.Perm.refl _
  | cons p ps ih =>
    have ih' := ih (fun q hq => hne q (List.mem_cons_of_mem _ hq))
    have hp := hne p (List.mem_cons_self _ _)
    have hsplit : p.dropLast ++ [p.getLastD ""] = p := by
      have h1 := List.dropLast_append_getLast hp
      have h2 : p.getLastD "" = p.getLast hp := by
        rw [List.getLastD_eq_getLast?, List.getLast?_eq_getLast p hp]
        rfl
      rw [h2]
      exact h1
    simp only [List.map_cons, List.flatten_cons, List.append_assoc]
    have h3 : ((List.map List.dropLast ps).flatten
        ++ p.getLastD "" :: List.map (fun p => p.getLastD "") ps).Perm
        ([p.getLastD ""] ++ ((List.map List.dropLast ps).flatten
          ++ List.map (fun p => p.getLastD "") ps)) := List.perm_middle
    have h4 := (List.Perm.append_left p.dropLast h3).trans
      (List.Perm.append_left p.dropLast (List.Perm.append_left [p.getLastD ""] ih'))
    have e : p.dropLast ++ ([p.getLastD ""] ++ ps.flatten) = p ++ ps.flatten := by
      rw [← List.append_assoc, hsplit]
    rw [e] at h4
    exact h4

theorem head_mem_dropLast (p : List String) (h : 2 ≤ p.length) :
    p.headD "" ∈ p.dropLast := by
  match p, h with
  | a :: b :: t, _ => simp [List.dropLast]

theorem last_mem_tail (p : List String) (h : 2 ≤ p.length) :
    p.getLastD "" ∈ p.tail := by
  match p, h with
  | a :: b :: t, _ =>
    simp only [List.getLastD_cons, List.tail_cons]
    exact List.getLastD_mem_cons t b

/-- The sets of a family of disjoint paths: the primary sources are the first
nodes, the final destinations the last nodes. -/
theorem chains_sets (paths : List (List String)) (flightPaths : List FlightPath)
    (hlen : ∀ p ∈ paths, 2 ≤ p.length) (hnd : paths.flatten.Nodup)
    (hperm : flightPaths.Perm (paths.map chainEdges).flatten) :
    (sources flightPaths).Nodup ∧
    (paths.map (fun p => p.headD "")).Nodup ∧
    (paths.map (fun p => p.getLastD "")).Nodup ∧
    primarySet flightPaths = (paths.map (fun p => p.headD "")).toFinset ∧
    finalSet flightPaths = (paths.map (fun p => p.getLastD "")).toFinset ∧
    (∀ p ∈ paths, p.getLastD "" ∉ sources flightPaths) := by
  have hne : ∀ p ∈ paths, p ≠ [] := fun p hp he => by
    have := hlen p hp
    rw [he] at this
    simp at this
  have hs : ∀ k, k ∈ sources flightPaths ↔ k ∈ (paths.map List.dropLast).flatten :=
    fun k => by rw [(sources_perm hperm).mem_iff, sources_chains]
  have hd : ∀ k, k ∈ destinations flightPaths ↔ k ∈ (paths.map List.tail).flatten :=
    fun k => by rw [(destinations_perm hperm).mem_iff, destinations_chains]
  have p1 := heads_tails_perm paths hne
  have p2 := dropLasts_lasts_perm paths hne
  have n1 := List.nodup_append.1 (p1.nodup_iff.2 hnd)
  have n2 := List.nodup_append.1 (p2.nodup_iff.2 hnd)
  have hsn : (sources flightPaths).Nodup := by
    rw [(sources_perm hperm).nodup_iff, sources_chains]
    exact n2.1
  have hheadsrc : ∀ p ∈ paths, p.headD "" ∈ sources flightPaths := fun p hp =>
    (hs _).2 (List.mem_flatten.2 ⟨p.dropLast, List.mem_map.2 ⟨p, hp, rfl⟩,
      head_mem_dropLast p (hlen p hp)⟩)
  have hlastdst : ∀ p ∈ paths, p.getLastD "" ∈ destinations flightPaths := fun p hp =>
    (hd _).2 (List.mem_flatten.2 ⟨p.tail, List.mem_map.2 ⟨p, hp, rfl⟩,
      last_mem_tail p (hlen p hp)⟩)
  refine ⟨hsn, n1.1, n2.2.1, ?_, ?_, ?_⟩
  · ext k
    simp only [primarySet, Finset.mem_sdiff, List.mem_toFinset]
    constructor
    · rintro ⟨hks, hkd⟩
      have hk : k ∈ paths.flatten := by
        obtain ⟨q, hq, hkq⟩ := List.mem_flatten.1 ((hs k).1 hks)
        obtain ⟨p, hp, rfl⟩ := List.mem_map.1 hq
        exact List.mem_flatten.2 ⟨p, hp, (List.dropLast_sublist p).subset hkq⟩
      rcases List.mem_append.1 (p1.mem_iff.2 hk) with h | h
      · exact h
      · exact absurd ((hd k).2 h) hkd
    · intro hk
      obtain ⟨p, hp, rfl⟩ := List.mem_map.1 hk
      exact ⟨hheadsrc p hp, fun hkd => n1.2.2 hk ((hd _).1 hkd)⟩
  · ext k
    simp only [finalSet, Finset.mem_sdiff, List.mem_toFinset]
    constructor
    · rintro ⟨hkd, hks⟩
      have hk : k ∈ paths.flatten := by
        obtain ⟨q, hq, hkq⟩ := List.mem_flatten.1 ((hd k).1 hkd)
        obtain ⟨p, hp, rfl⟩ := List.mem_map.1 hq
        exact List.mem_flatten.2 ⟨p, hp, (List.tail_sublist p).subset hkq⟩
      rcases List.mem_append.1 (p2.mem_iff.2 hk) with h | h
      · exact absurd ((hs k).2 h) hks
      · exact h
    · intro hk
      obtain ⟨p, hp, rfl⟩ := List.mem_map.1 hk
      exact ⟨hlastdst p hp, fun hks =>
        n2.2.2 ((hs _).1 hks) (List.mem_map.2 ⟨p, hp, rfl⟩)⟩
  · intro p hp hks
    exact n2.2.2 ((hs _).1 hks) (List.mem_map.2 ⟨p, hp, rfl⟩)

theorem lastDest_eq_none (flightPaths : List FlightPath) (a : String)
    (h : a ∉ sources flightPaths) : lastDest flightPaths a = none := by
  induction flightPaths with
  | nil => rfl
  | cons fp rest ih =>
    have h0 : fp[0]? ≠ some a := fun he =>
      h (List.mem_filterMap.2 ⟨fp, List.mem_cons_self _ _, he⟩)
    have hr : a ∉ sources rest := fun hm => by
      obtain ⟨x, hx, hxa⟩ := List.mem_filterMap.1 hm
      exact h (List.mem_filterMap.2 ⟨x, List.mem_cons_of_mem _ hx, hxa⟩)
    simp only [lastDest, ih hr, h0, if_false]

theorem lastDest_of_mem (flightPaths : List FlightPath) (a b : String)
    (hn : (sources flightPaths).Nodup) (h : [a, b] ∈ flightPaths) :
    lastDest flightPaths a = some b := by
  induction flightPaths with
  | nil => exact absurd h (List.not_mem_nil _)
  | cons fp rest ih =>
    rcases List.mem_cons.1 h with he | hm
    · subst he
      have hn' : (a :: sources rest).Nodup := hn
      have hr := lastDest_eq_none rest a (List.nodup_cons.1 hn').1
      simp [lastDest, hr]
    · have hsub : (sources rest).Sublist (sources (fp :: rest)) := by
        unfold sources
        rw [List.filterMap_cons]
        cases fp[0]? with
        | none => exact List.Sublist.refl _
        | some c => exact List.sublist_cons_self _ _
      simp only [lastDest, ih (hsub.nodup hn) hm]

theorem chain_chainEdges (a : String) (t : List String) :
    List.Chain (fun x y => [x, y] ∈ chainEdges (a :: t)) a t := by
  induction t generalizing a with
  | nil => exact List.Chain.nil
  | cons b t ih =>
    refine List.chain_cons.2 ⟨?_, (ih b).imp (fun x y hxy => ?_)⟩
    · simp [chainEdges]
    · simp only [chainEdges, List.mem_cons]
      exact Or.inr hxy

/-- A walk along a path of the adjacency map ends at the last node of the path. -/
theorem walk_chain (m : GoMap String) (a : String) (t : List String) (vis : GoMap Bool)
    (hc : List.Chain (fun x y => m.get? x = some y) a t)
    (hend : m.get? (t.getLastD a) = none) (hnd : (a :: t).Nodup)
    (hvis : ∀ x ∈ a :: t, vis.getB x = false) :
    walk m (t.length + 1) vis a = .ended (t.getLastD a) := by
  induction t generalizing a vis with
  | nil =>
    have hva := hvis a (List.mem_cons_self _ _)
    have hend' : m.get? a = none := hend
    simp [walk, hva, hend']
  | cons b t ih =>
    have hva := hvis a (List.mem_cons_self _ _)
    obtain ⟨hab, hc'⟩ := List.chain_cons.1 hc
    obtain ⟨hna, hnd'⟩ := List.nodup_cons.1 hnd
    have hstep : walk m ((b :: t).length + 1) vis a
        = walk m (t.length + 1) (vis.set a true) b := by
      simp [walk, hva, hab]
    rw [hstep, List.getLastD_cons]
    apply ih b (vis.set a true) hc' (by rw [← List.getLastD_cons a b t]; exact hend) hnd'
    intro x hx
    rw [GoMap.getB_set]
    have hax : a ≠ x := fun he => hna (he ▸ hx)
    simp [hax, hvis x (List.mem_cons_of_mem _ hx)]

/-- In a family of disjoint paths the walk from the first node of a path ends
at its last node. -/
theorem chains_walk (paths : List (List String)) (flightPaths : List FlightPath)
    (hlen : ∀ p ∈ paths, 2 ≤ p.length) (hnd : paths.flatten.Nodup)
    (hperm : flightPaths.Perm (paths.map chainEdges).flatten)
    (st : Maps) (hst : populate flightPaths Maps.init = some st)
    (fuel : Nat) (hf : flightPaths.length < fuel) (p : List String) (hp : p ∈ paths) :
    walk st.srcToDestMap fuel GoMap.empty (p.headD "") = .ended (p.getLastD "") := by
  obtain ⟨hsn, _, _, _, _, hlast⟩ := chains_sets paths flightPaths hlen hnd hperm
  obtain ⟨_, _, h3, _⟩ := populate_init flightPaths st hst
  have hl := hlen p hp
  have hpn : p.Nodup := (List.sublist_flatten_of_mem hp).nodup hnd
  have hlastp := hlast p hp
  match p, hl, hp, hpn, hlastp with
  | a :: t, _, hp, hpn, hlastp =>
    simp only [List.headD_cons, List.getLastD_cons] at hlastp ⊢
    have hc : List.Chain (fun x y => st.srcToDestMap.get? x = some y) a t := by
      refine (chain_chainEdges a t).imp (fun x y hxy => ?_)
      rw [h3]
      apply lastDest_of_mem flightPaths x y hsn
      exact hperm.mem_iff.2
        (List.mem_flatten.2 ⟨chainEdges (a :: t), List.mem_map.2 ⟨_, hp, rfl⟩, hxy⟩)
    have hend : st.srcToDestMap.get? (t.getLastD a) = none := by
      rw [h3]
      exact lastDest_eq_none flightPaths _ hlastp
    have hw := walk_chain st.srcToDestMap a t GoMap.empty hc hend hpn
      (fun x _ => GoMap.getB_empty x)
    rw [walk_fuel_indep st.srcToDestMap fuel (t.length + 1) GoMap.empty a
      (walk_enough_fuel fuel flightPaths st hst hf a) (by rw [hw]; simp)]
    exact hw

/-- A family of disjoint paths passes the three checks, and the primary
sources that are walked are the first nodes of the paths. -/
theorem chains_valid (fuel : Nat) (srcOrder dstOrder : List String)
    (paths : List (List String)) (flightPaths : List FlightPath)
    (hk : paths ≠ []) (hlen : ∀ p ∈ paths, 2 ≤ p.length) (hnd : paths.flatten.Nodup)
    (hperm : flightPaths.Perm (paths.map chainEdges).flatten)
    (hr : RangeOrder srcOrder dstOrder flightPaths) :
    ∃ st, populate flightPaths Maps.init = some st ∧
      calculate fuel srcOrder dstOrder flightPaths
        = walkAll fuel st.srcToDestMap
            (srcOrder.filter (fun key => !st.destinationSet.getB key)) [] ∧
      (srcOrder.filter (fun key => !st.destinationSet.getB key)).Perm
        (paths.map (fun p => p.headD "")) := by
  have h2 : ∀ fp ∈ flightPaths, fp.length = 2 := by
    intro fp hfp
    obtain ⟨l, hl, hfl⟩ := List.mem_flatten.1 (hperm.mem_iff.1 hfp)
    obtain ⟨q, _, rfl⟩ := List.mem_map.1 hl
    exact chainEdges_length_two q fp hfl
  obtain ⟨st, hst⟩ := populate_isSome flightPaths h2 Maps.init
  obtain ⟨_, hheads, hlasts, hprim, hfin, _⟩ :=
    chains_sets paths flightPaths hlen hnd hperm
  have hso : srcOrder.Perm st.sourceSet.keys := by
    unfold RangeOrder at hr; rw [hst] at hr; exact hr.1
  have hcp : (primarySet flightPaths).card = paths.length := by
    rw [hprim, List.toFinset_card_of_nodup hheads, List.length_map]
  have hcf : (finalSet flightPaths).card = paths.length := by
    rw [hfin, List.toFinset_card_of_nodup hlasts, List.length_map]
  have hpos : 0 < paths.length := List.length_pos.2 hk
  have h0 : ¬ (primarySet flightPaths).card < 1 := by omega
  have hpe : primarySet flightPaths ≠ ∅ := fun he => h0 ((card_lt_one_iff _).2 he)
  have h1 := destinations_nonempty_of_primary flightPaths h2 hpe
  refine ⟨st, hst, ?_, ?_⟩
  · rw [calculate_eq fuel srcOrder dstOrder flightPaths st hst hr, if_neg h0, if_neg h1,
      if_neg (not_not.2 (hcp.trans hcf.symm))]
  · obtain ⟨_, _, _, h4, _⟩ := populate_init flightPaths st hst
    refine (List.perm_ext_iff_of_nodup ((hso.nodup_iff.2 h4).filter _) hheads).2
      (fun s => ?_)
    rw [mem_primarySources flightPaths st hst srcOrder hso s, hprim, List.mem_toFinset]

/-- C2: for a family of `k ≥ 1` simple paths, each with at least two nodes, whose
nodes are pairwise distinct within and across paths, for every ordering of the
list of all their consecutive edges and every enumeration order of the sets,
`calculate` returns no error and its result is a permutation of the list of
pairs `[first(P), last(P)]`, one per path. -/
theorem calculate_disjoint_chains (fuel : Nat) (srcOrder dstOrder : List String)
    (paths : List (List String)) (flightPaths : List FlightPath)
    (hk : paths ≠ []) (hlen : ∀ p ∈ paths, 2 ≤ p.length) (hnd : paths.flatten.Nodup)
    (hperm : flightPaths.Perm (paths.map chainEdges).flatten)
    (hr : RangeOrder srcOrder dstOrder flightPaths)
    (hf : flightPaths.length < fuel) :
    ∃ r, calculate fuel srcOrder dstOrder flightPaths = .ok r ∧
      r.Perm (paths.map (fun p => [p.headD "", p.getLastD ""])) := by
  obtain ⟨st, hst, heq, hps⟩ :=
    chains_valid fuel srcOrder dstOrder paths flightPaths hk hlen hnd hperm hr
  have hw := chains_walk paths flightPaths hlen hnd hperm st hst fuel hf
  have hall : ∀ s ∈ srcOrder.filter (fun key => !st.destinationSet.getB key),
      ∃ e, walk st.srcToDestMap fuel GoMap.empty s = .ended e := by
    intro s hs
    obtain ⟨p, hp, rfl⟩ := List.mem_map.1 (hps.mem_iff.1 hs)
    exact ⟨_, hw p hp⟩
  refine ⟨_, heq.trans (walkAll_ok fuel st.srcToDestMap _ [] hall), ?_⟩
  rw [List.nil_append]
  refine (hps.map _).trans ?_
  rw [List.map_map]
  refine List.Perm.of_eq (List.map_congr_left (fun p hp => ?_))
  simp only [Function.comp_apply, walkEnd, hw p hp]

/-- Witness of C2 on the input of the test "Multiple Sources Destinations". -/
theorem calculate_disjoint_chains_witness :
    [["SFO", "ATL", "GSO", "IND", "EWR"], ["IAD", "JFK"]] ≠ [] ∧
    (∀ p ∈ [["SFO", "ATL", "GSO", "IND", "EWR"], ["IAD", "JFK"]], 2 ≤ p.length) ∧
    [["SFO", "ATL", "GSO", "IND", "EWR"], ["IAD", "JFK"]].flatten.Nodup ∧
    List.Perm
      [["IND", "EWR"], ["SFO", "ATL"], ["GSO", "IND"], ["ATL", "GSO"], ["IAD", "JFK"]]
      ([["SFO", "ATL", "GSO", "IND", "EWR"], ["IAD", "JFK"]].map chainEdges).flatten ∧
    RangeOrder ["IAD", "ATL", "GSO", "SFO", "IND"] ["JFK", "GSO", "IND", "ATL", "EWR"]
      [["IND", "EWR"], ["SFO", "ATL"], ["GSO", "IND"], ["ATL", "GSO"], ["IAD", "JFK"]] ∧
    [["IND", "EWR"], ["SFO", "ATL"], ["GSO", "IND"], ["ATL", "GSO"],
      ["IAD", "JFK"]].length < 6 ∧
    ∃ r, calculate 6 ["IAD", "ATL", "GSO", "SFO", "IND"]
        ["JFK", "GSO", "IND", "ATL", "EWR"]
        [["IND", "EWR"], ["SFO", "ATL"], ["GSO", "IND"], ["ATL", "GSO"], ["IAD", "JFK"]]
        = .ok r ∧
      r.Perm ([["SFO", "ATL", "GSO", "IND", "EWR"], ["IAD", "JFK"]].map
        (fun p => [p.headD "", p.getLastD ""])) :=
  ⟨by decide, by decide, by decide, by decide, by decide, by decide,
    calculate_disjoint_chains 6 ["IAD", "ATL", "GSO", "SFO", "IND"]
      ["JFK", "GSO", "IND", "ATL", "EWR"]
      [["SFO", "ATL", "GSO", "IND", "EWR"], ["IAD", "JFK"]]
      [["IND", "EWR"], ["SFO", "ATL"], ["GSO", "IND"], ["ATL", "GSO"], ["IAD", "JFK"]]
      (by decide) (by decide) (by decide) (by decide) (by decide) (by decide)⟩

/-- C1: for `n ≥ 1`, pairwise distinct identifiers `v0, v1, ..., vn`, every
ordering of the edge list `(v0,v1), (v1,v2), ..., (v(n-1),vn)` and every
enumeration order of the sets, `calculate` returns no error and its result is
exactly the one-element list `[[v0, vn]]`. -/
theorem calculate_single_chain (fuel : Nat) (srcOrder dstOrder : List String)
    (v0 : String) (rest : List String) (flightPaths : List FlightPath)
    (hn : rest ≠ []) (hd : (v0 :: rest).Nodup)
    (hperm : flightPaths.Perm (chainEdges (v0 :: rest)))
    (hr : RangeOrder srcOrder dstOrder flightPaths)
    (hf : flightPaths.length < fuel) :
    calculate fuel srcOrder dstOrder flightPaths = .ok [[v0, rest.getLast hn]] := by
  have hlen : ∀ p ∈ [v0 :: rest], 2 ≤ p.length := by
    intro p hp
    rw [List.mem_singleton] at hp
    subst hp
    have := List.length_pos.2 hn
    simp only [List.length_cons]
    omega
  have hnd : [v0 :: rest].flatten.Nodup := by simpa using hd
  have hperm' : flightPaths.Perm ([v0 :: rest].map chainEdges).flatten := by
    simpa using hperm
  obtain ⟨st, hst, heq, hps⟩ :=
    chains_valid fuel srcOrder dstOrder [v0 :: rest] flightPaths (by simp) hlen hnd
      hperm' hr
  have hw := chains_walk [v0 :: rest] flightPaths hlen hnd hperm' st hst fuel hf
    (v0 :: rest) (List.mem_singleton.2 rfl)
  have hlast : (v0 :: rest).getLastD "" = rest.getLast hn := by
    rw [List.getLastD_cons, List.getLastD_eq_getLast?, List.getLast?_eq_getLast rest hn]
    rfl
  rw [List.headD_cons, hlast] at hw
  have hps' : srcOrder.filter (fun key => !st.destinationSet.getB key) = [v0] := by
    simpa using hps
  rw [heq, hps']
  simp [walkAll, hw]

/-- Witness of C1 on the input of the test "Connected Flights". -/
theorem calculate_single_chain_witness :
    ["ATL", "EWR"] ≠ [] ∧
    ("SFO" :: ["ATL", "EWR"]).Nodup ∧
    List.Perm [["ATL", "EWR"], ["SFO", "ATL"]] (chainEdges ("SFO" :: ["ATL", "EWR"])) ∧
    RangeOrder ["SFO", "ATL"] ["ATL", "EWR"] [["ATL", "EWR"], ["SFO", "ATL"]] ∧
    [["ATL", "EWR"], ["SFO", "ATL"]].length < 3 ∧
    calculate 3 ["SFO", "ATL"] ["ATL", "EWR"] [["ATL", "EWR"], ["SFO", "ATL"]]
      = .ok [["SFO", ["ATL", "EWR"].getLast (by decide)]] :=
  ⟨by decide, by decide, by decide, by decide, by decide,
    calculate_single_chain 3 ["SFO", "ATL"] ["ATL", "EWR"] "SFO" ["ATL", "EWR"]
      [["ATL", "EWR"], ["SFO", "ATL"]]
      (by decide) (by decide) (by decide) (by decide) (by decide)⟩

/-! ## A source with two destinations -/

/-- C11 as stated fails: on `(SFO,IAD),(SFO,JFK)` the call does not return
`[[SFO,JFK]]` but the error of the third check. -/
theorem calculate_duplicate_source_counterexample :
    (∀ fp ∈ [["SFO", "IAD"], ["SFO", "JFK"]], fp.length = 2) ∧
    RangeOrder ["SFO"] ["IAD", "JFK"] [["SFO", "IAD"], ["SFO", "JFK"]] ∧
    calculate 3 ["SFO"] ["IAD", "JFK"] [["SFO", "IAD"], ["SFO", "JFK"]]
      = .error "Mismatch in primary sources and final destinations" ∧
    calculate 3 ["SFO"] ["IAD", "JFK"] [["SFO", "IAD"], ["SFO", "JFK"]]
      ≠ .ok [["SFO", "JFK"]] := by
  refine ⟨by decide, by decide, by decide, by decide⟩

/-- C11 amended: for the edge list `(a,b),(a,c)` with `a`, `b`, `c` pairwise
distinct, the accesses are in bounds (no panic) and the later edge's
destination survives in the adjacency (`a` maps to `c`), but for every
enumeration order `calculate` returns the error
"Mismatch in primary sources and final destinations" (one primary source, two
final destinations) and no result. -/
theorem calculate_duplicate_source (fuel : Nat) (srcOrder dstOrder : List String)
    (a b c : String) (hab : a ≠ b) (hac : a ≠ c) (hbc : b ≠ c)
    (hr : RangeOrder srcOrder dstOrder [[a, b], [a, c]]) :
    calculate fuel srcOrder dstOrder [[a, b], [a, c]]
        = .error "Mismatch in primary sources and final destinations" ∧
      calculate fuel srcOrder dstOrder [[a, b], [a, c]] ≠ .panic ∧
      lastDest [[a, b], [a, c]] a = some c ∧
      (∃ st, populate [[a, b], [a, c]] Maps.init = some st ∧
        st.srcToDestMap.get? a = some c) := by
  obtain ⟨st, hst⟩ := populate_isSome [[a, b], [a, c]]
    (fun fp hfp => by
      rcases List.mem_cons.1 hfp with rfl | h
      · rfl
      · rw [List.mem_singleton] at h; subst h; rfl) Maps.init
  have hp : primarySet [[a, b], [a, c]] = {a} := by
    ext k
    simp only [primarySet, sources, destinations, List.filterMap_cons,
      List.getElem?_cons_zero, List.getElem?_cons_succ, List.filterMap_nil,
      Finset.mem_sdiff, List.mem_toFinset, List.mem_cons, List.mem_singleton,
      List.not_mem_nil, or_false, or_self, Finset.mem_singleton]
    constructor
    · exact fun h => h.1
    · rintro rfl
      exact ⟨rfl, fun h => h.elim hab hac⟩
  have hfs : finalSet [[a, b], [a, c]] = {b, c} := by
    ext k
    simp only [finalSet, sources, destinations, List.filterMap_cons,
      List.getElem?_cons_zero, List.getElem?_cons_succ, List.filterMap_nil,
      Finset.mem_sdiff, List.mem_toFinset, List.mem_cons, List.mem_singleton,
      List.not_mem_nil, or_false, or_self, Finset.mem_insert, Finset.mem_singleton]
    constructor
    · exact fun h => h.1
    · intro h
      refine ⟨h, fun hk => ?_⟩
      subst hk
      exact h.elim hab hac
  have hdc : (destinations [[a, b], [a, c]]).toFinset.card = 2 := by
    have : destinations [[a, b], [a, c]] = [b, c] := rfl
    rw [this, List.toFinset_card_of_nodup (by simp [hbc])]
    rfl
  have hfc : (finalSet [[a, b], [a, c]]).card = 2 := by
    rw [hfs, Finset.card_pair hbc]
  have hld : lastDest [[a, b], [a, c]] a = some c := by
    simp [lastDest]
  have h4 : calculate fuel srcOrder dstOrder [[a, b], [a, c]]
      = .error "Mismatch in primary sources and final destinations" := by
    rw [calculate_eq fuel srcOrder dstOrder _ st hst hr, hp, hdc, hfc]
    simp
  refine ⟨h4, ?_, hld, st, hst, ?_⟩
  · rw [h4]; simp
  · rw [(populate_init _ st hst).2.2.1 a, hld]

/-- Witness of C11 amended on the example of the specification. -/
theorem calculate_duplicate_source_witness :
    "SFO" ≠ "IAD" ∧ "SFO" ≠ "JFK" ∧ "IAD" ≠ "JFK" ∧
    RangeOrder ["SFO"] ["JFK", "IAD"] [["SFO", "IAD"], ["SFO", "JFK"]] ∧
    (calculate 3 ["SFO"] ["JFK", "IAD"] [["SFO", "IAD"], ["SFO", "JFK"]]
        = .error "Mismatch in primary sources and final destinations" ∧
      calculate 3 ["SFO"] ["JFK", "IAD"] [["SFO", "IAD"], ["SFO", "JFK"]] ≠ .panic ∧
      lastDest [["SFO", "IAD"], ["SFO", "JFK"]] "SFO" = some "JFK" ∧
      (∃ st, populate [["SFO", "IAD"], ["SFO", "JFK"]] Maps.init = some st ∧
        st.srcToDestMap.get? "SFO" = some "JFK")) :=
  ⟨by decide, by decide, by decide, by decide,
    calculate_duplicate_source 3 ["SFO"] ["JFK", "IAD"] "SFO" "IAD" "JFK"
      (by decide) (by decide) (by decide) (by decide)⟩

/-! ## Failure modes and termination -/

theorem walkAll_not_panic (fuel : Nat) (m : GoMap String) (l : List String)
    (acc : List (List String)) : walkAll fuel m l acc ≠ .panic := by
  induction l generalizing acc with
  | nil => simp [walkAll]
  | cons s rest ih =>
    cases hw : walk m fuel GoMap.empty s with
    | cycle => simp [walkAll, hw]
    | outOfFuel => simp [walkAll, hw]
    | ended e =>
      simp only [walkAll, hw]
      exact ih _

theorem walkAll_not_outOfFuel (fuel : Nat) (m : GoMap String) (l : List String)
    (acc : List (List String))
    (hf : ∀ s ∈ l, walk m fuel GoMap.empty s ≠ .outOfFuel) :
    walkAll fuel m l acc ≠ .outOfFuel := by
  induction l generalizing acc with
  | nil => simp [walkAll]
  | cons s rest ih =>
    cases hw : walk m fuel GoMap.empty s with
    | cycle => simp [walkAll, hw]
    | outOfFuel => exact absurd hw (hf s (List.mem_cons_self _ _))
    | ended e =>
      simp only [walkAll, hw]
      exact ih _ (fun t ht => hf t (List.mem_cons_of_mem _ ht))

theorem walkAll_fuel_indep (f1 f2 : Nat) (m : GoMap String) (l : List String)
    (acc : List (List String))
    (h1 : ∀ s, walk m f1 GoMap.empty s ≠ .outOfFuel)
    (h2 : ∀ s, walk m f2 GoMap.empty s ≠ .outOfFuel) :
    walkAll f1 m l acc = walkAll f2 m l acc := by
  induction l generalizing acc with
  | nil => rfl
  | cons s rest ih =>
    have he := walk_fuel_indep m f1 f2 GoMap.empty s (h1 s) (h2 s)
    cases hw : walk m f2 GoMap.empty s with
    | cycle => simp [walkAll, he, hw]
    | outOfFuel => exact absurd hw (h2 s)
    | ended e =>
      simp only [walkAll, he, hw]
      exact ih _

/-- C12: for an edge list whose edges all have two elements, `calculate` does not
panic (the accesses `fp[0]` and `fp[1]` are in bounds), and with a sufficient
iteration budget its outcome is a list of pairs or an error whose message is
one of the four messages of the code. -/
theorem calculate_failure_modes (fuel : Nat) (srcOrder dstOrder : List String)
    (flightPaths : List FlightPath) (h2 : ∀ fp ∈ flightPaths, fp.length = 2)
    (hf : flightPaths.length < fuel) :
    calculate fuel srcOrder dstOrder flightPaths ≠ .panic ∧
    ((∃ r, calculate fuel srcOrder dstOrder flightPaths = .ok r) ∨
      ∃ msg, calculate fuel srcOrder dstOrder flightPaths = .error msg ∧
        (msg = "No primary sources could be identified" ∨
          msg = "No final destinations could be identified" ∨
          msg = "Mismatch in primary sources and final destinations" ∨
          msg = "Cycle detected in flight paths")) := by
  obtain ⟨st, hst⟩ := populate_isSome flightPaths h2 Maps.init
  have hfu := walk_enough_fuel fuel flightPaths st hst hf
  unfold calculate
  simp only [hst]
  split
  · exact ⟨by simp, Or.inr ⟨_, rfl, Or.inl rfl⟩⟩
  · split
    · exact ⟨by simp, Or.inr ⟨_, rfl, Or.inr (Or.inl rfl)⟩⟩
    · split
      · exact ⟨by simp, Or.inr ⟨_, rfl, Or.inr (Or.inr (Or.inl rfl))⟩⟩
      · refine ⟨walkAll_not_panic _ _ _ _, ?_⟩
        cases hw : walkAll fuel st.srcToDestMap
            (List.filter (fun key => !st.destinationSet.getB key) srcOrder) [] with
        | ok r => exact Or.inl ⟨r, rfl⟩
        | error msg =>
          exact Or.inr ⟨msg, rfl, Or.inr (Or.inr (Or.inr (walkAll_error _ _ _ _ _ hw).1))⟩
        | panic => exact absurd hw (walkAll_not_panic _ _ _ _)
        | outOfFuel =>
          exact absurd hw (walkAll_not_outOfFuel _ _ _ _ (fun s _ => hfu s))

/-- Witness of C12 on an input whose walk runs into a cycle. -/
theorem calculate_failure_modes_witness :
    (∀ fp ∈ [["A", "B"], ["B", "C"], ["C", "B"], ["D", "E"], ["D", "F"]],
      fp.length = 2) ∧
    [["A", "B"], ["B", "C"], ["C", "B"], ["D", "E"], ["D", "F"]].length < 6 ∧
    (calculate 6 ["A", "B", "C", "D"] ["B", "C", "E", "F"]
        [["A", "B"], ["B", "C"], ["C", "B"], ["D", "E"], ["D", "F"]] ≠ .panic ∧
    ((∃ r, calculate 6 ["A", "B", "C", "D"] ["B", "C", "E", "F"]
        [["A", "B"], ["B", "C"], ["C", "B"], ["D", "E"], ["D", "F"]] = .ok r) ∨
      ∃ msg, calculate 6 ["A", "B", "C", "D"] ["B", "C", "E", "F"]
        [["A", "B"], ["B", "C"], ["C", "B"], ["D", "E"], ["D", "F"]] = .error msg ∧
        (msg = "No primary sources could be identified" ∨
          msg = "No final destinations could be identified" ∨
          msg = "Mismatch in primary sources and final destinations" ∨
          msg = "Cycle detected in flight paths"))) :=
  ⟨by decide, by decide,
    calculate_failure_modes 6 ["A", "B", "C", "D"] ["B", "C", "E", "F"]
      [["A", "B"], ["B", "C"], ["C", "B"], ["D", "E"], ["D", "F"]]
      (by decide) (by decide)⟩

/-- C18: for an edge list of two-element edges and every enumeration order,
`calculate` never returns the error "No final destinations could be
identified"; an input with a primary source and no final destination gets the
error "Mismatch in primary sources and final destinations" instead. -/
theorem calculate_noFinalDestination_unreachable (fuel : Nat)
    (srcOrder dstOrder : List String) (flightPaths : List FlightPath)
    (h2 : ∀ fp ∈ flightPaths, fp.length = 2)
    (hr : RangeOrder srcOrder dstOrder flightPaths) :
    calculate fuel srcOrder dstOrder flightPaths
        ≠ .error "No final destinations could be identified" ∧
    ((primarySet flightPaths).Nonempty → finalSet flightPaths = ∅ →
      calculate fuel srcOrder dstOrder flightPaths
        = .error "Mismatch in primary sources and final destinations") := by
  obtain ⟨st, hst⟩ := populate_isSome flightPaths h2 Maps.init
  rw [calculate_eq fuel srcOrder dstOrder flightPaths st hst hr]
  by_cases h0 : (primarySet flightPaths).card < 1
  · rw [if_pos h0]
    refine ⟨?_, fun hp => ?_⟩
    · simp only [ne_eq, Outcome.error.injEq]; decide
    · exact absurd ((card_lt_one_iff _).1 h0) (Finset.nonempty_iff_ne_empty.1 hp)
  · have hpe : primarySet flightPaths ≠ ∅ := fun he => h0 ((card_lt_one_iff _).2 he)
    have h1 := destinations_nonempty_of_primary flightPaths h2 hpe
    rw [if_neg h0, if_neg h1]
    constructor
    · by_cases hne : (primarySet flightPaths).card ≠ (finalSet flightPaths).card
      · rw [if_pos hne]
        simp only [ne_eq, Outcome.error.injEq]; decide
      · rw [if_neg hne]
        intro hw
        have := (walkAll_error _ _ _ _ _ hw).1
        revert this
        decide
    · intro _ hfe
      have hne : (primarySet flightPaths).card ≠ (finalSet flightPaths).card := by
        rw [hfe, Finset.card_empty]
        omega
      rw [if_pos hne]

/-- Witness of C18 on the input of the test "No Final Destinations", which has
a primary source and no final destination. -/
theorem calculate_noFinalDestination_unreachable_witness :
    (∀ fp ∈ [["SFO", "IAD"], ["JFK", "SFO"], ["IAD", "SFO"]], fp.length = 2) ∧
    RangeOrder ["IAD", "JFK", "SFO"] ["SFO", "IAD"]
      [["SFO", "IAD"], ["JFK", "SFO"], ["IAD", "SFO"]] ∧
    calculate 4 ["IAD", "JFK", "SFO"] ["SFO", "IAD"]
        [["SFO", "IAD"], ["JFK", "SFO"], ["IAD", "SFO"]]
        ≠ .error "No final destinations could be identified" ∧
    (primarySet [["SFO", "IAD"], ["JFK", "SFO"], ["IAD", "SFO"]]).Nonempty ∧
    finalSet [["SFO", "IAD"], ["JFK", "SFO"], ["IAD", "SFO"]] = ∅ ∧
    calculate 4 ["IAD", "JFK", "SFO"] ["SFO", "IAD"]
        [["SFO", "IAD"], ["JFK", "SFO"], ["IAD", "SFO"]]
        = .error "Mismatch in primary sources and final destinations" :=
  have h := calculate_noFinalDestination_unreachable 4 ["IAD", "JFK", "SFO"]
    ["SFO", "IAD"] [["SFO", "IAD"], ["JFK", "SFO"], ["IAD", "SFO"]]
    (by decide) (by decide)
  ⟨by decide, by decide, h.1, by decide, by decide, h.2 (by decide) (by decide)⟩

theorem populate_nodup_map (flightPaths : List FlightPath) (st st' : Maps)
    (h : populate flightPaths st = some st') (hn : st.srcToDestMap.keys.Nodup) :
    st'.srcToDestMap.keys.Nodup := by
  induction flightPaths generalizing st with
  | nil =>
    simp only [populate, Option.some.injEq] at h
    subst h
    exact hn
  | cons fp rest ih =>
    unfold populate at h
    split at h
    · exact ih _ h (GoMap.nodup_keys_set _ _ _ hn)
    · exact absurd h (by simp)

theorem keys_srcToDestMap_subset (flightPaths : List FlightPath) (st : Maps)
    (h : populate flightPaths Maps.init = some st) (k : String)
    (hk : k ∈ st.srcToDestMap.keys) : k ∈ sources flightPaths := by
  rw [GoMap.mem_keys_iff, (populate_init flightPaths st h).2.2.1 k] at hk
  by_contra hns
  exact hk (lastDest_eq_none flightPaths k hns)

/-- The adjacency map has at most as many keys as the input has identifiers. -/
theorem len_srcToDestMap_le (flightPaths : List FlightPath) (st : Maps)
    (h : populate flightPaths Maps.init = some st) :
    st.srcToDestMap.len ≤ (identifiers flightPaths).card := by
  have hn : st.srcToDestMap.keys.Nodup :=
    populate_nodup_map flightPaths Maps.init st h List.nodup_nil
  have hl : st.srcToDestMap.len = st.srcToDestMap.keys.length := by
    simp [GoMap.len, GoMap.keys]
  rw [hl, ← List.toFinset_card_of_nodup hn]
  apply Finset.card_le_card
  intro k hk
  rw [List.mem_toFinset] at hk
  simp only [identifiers, List.mem_toFinset, List.mem_append]
  exact Or.inl (keys_srcToDestMap_subset flightPaths st h k hk)

/-- C13: `calculate` terminates on every edge list of two-element edges, cyclic
or not: every forward walk, from any start, stops within
(number of distinct identifiers + 1) loop iterations, so with that budget or
more the call ends (without a panic), and a larger budget does not change its
outcome. -/
theorem calculate_terminates (fuel : Nat) (srcOrder dstOrder : List String)
    (flightPaths : List FlightPath) (h2 : ∀ fp ∈ flightPaths, fp.length = 2)
    (hf : (identifiers flightPaths).card + 1 ≤ fuel) :
    (∃ st, populate flightPaths Maps.init = some st ∧
      ∀ s, walk st.srcToDestMap fuel GoMap.empty s ≠ .outOfFuel) ∧
    calculate fuel srcOrder dstOrder flightPaths ≠ .outOfFuel ∧
    calculate fuel srcOrder dstOrder flightPaths ≠ .panic ∧
    ∀ fuel', fuel ≤ fuel' →
      calculate fuel' srcOrder dstOrder flightPaths
        = calculate fuel srcOrder dstOrder flightPaths := by
  obtain ⟨st, hst⟩ := populate_isSome flightPaths h2 Maps.init
  have hlen := len_srcToDestMap_le flightPaths st hst
  have hwalk : ∀ f, fuel ≤ f → ∀ s,
      walk st.srcToDestMap f GoMap.empty s ≠ .outOfFuel := by
    intro f hle s
    apply walk_fuel
    have h1 := List.length_filter_le (fun k => !GoMap.getB GoMap.empty k)
      (GoMap.keys st.srcToDestMap)
    have h3 : (GoMap.keys st.srcToDestMap).length = st.srcToDestMap.len := by
      simp [GoMap.keys, GoMap.len]
    omega
  have hcases : ∀ f, fuel ≤ f →
      calculate f srcOrder dstOrder flightPaths ≠ .outOfFuel ∧
      calculate f srcOrder dstOrder flightPaths ≠ .panic ∧
      calculate f srcOrder dstOrder flightPaths
        = calculate fuel srcOrder dstOrder flightPaths := by
    intro f hle
    unfold calculate
    simp only [hst]
    split
    · exact ⟨by simp, by simp, rfl⟩
    · split
      · exact ⟨by simp, by simp, rfl⟩
      · split
        · exact ⟨by simp, by simp, rfl⟩
        · exact ⟨walkAll_not_outOfFuel _ _ _ _ (fun s _ => hwalk f hle s),
            walkAll_not_panic _ _ _ _,
            walkAll_fuel_indep f fuel _ _ _ (hwalk f hle) (hwalk fuel (Nat.le_refl _))⟩
  exact ⟨⟨st, hst, hwalk fuel (Nat.le_refl _)⟩, (hcases fuel (Nat.le_refl _)).1,
    (hcases fuel (Nat.le_refl _)).2.1, fun f hle => (hcases f hle).2.2⟩

/-- Witness of C13 on an input whose walk from A runs into the cycle B, C: six
identifiers, seven iterations. -/
theorem calculate_terminates_witness :
    (∀ fp ∈ [["A", "B"], ["B", "C"], ["C", "B"], ["D", "E"], ["D", "F"]],
      fp.length = 2) ∧
    (identifiers [["A", "B"], ["B", "C"], ["C", "B"], ["D", "E"], ["D", "F"]]).card + 1
      ≤ 7 ∧
    ((∃ st, populate [["A", "B"], ["B", "C"], ["C", "B"], ["D", "E"], ["D", "F"]]
        Maps.init = some st ∧
      ∀ s, walk st.srcToDestMap 7 GoMap.empty s ≠ .outOfFuel) ∧
    calculate 7 ["A", "B", "C", "D"] ["B", "C", "E", "F"]
      [["A", "B"], ["B", "C"], ["C", "B"], ["D", "E"], ["D", "F"]] ≠ .outOfFuel ∧
    calculate 7 ["A", "B", "C", "D"] ["B", "C", "E", "F"]
      [["A", "B"], ["B", "C"], ["C", "B"], ["D", "E"], ["D", "F"]] ≠ .panic ∧
    ∀ fuel', 7 ≤ fuel' →
      calculate fuel' ["A", "B", "C", "D"] ["B", "C", "E", "F"]
        [["A", "B"], ["B", "C"], ["C", "B"], ["D", "E"], ["D", "F"]]
        = calculate 7 ["A", "B", "C", "D"] ["B", "C", "E", "F"]
          [["A", "B"], ["B", "C"], ["C", "B"], ["D", "E"], ["D", "F"]]) :=
  ⟨by decide, by decide,
    calculate_terminates 7 ["A", "B", "C", "D"] ["B", "C", "E", "F"]
      [["A", "B"], ["B", "C"], ["C", "B"], ["D", "E"], ["D", "F"]]
      (by decide) (by decide)⟩

/-! ## The pairs of a successful call -/

theorem walk_ended_bound (m : GoMap String) (fuel : Nat) (vis : GoMap Bool)
    (cur e : String) (h : walk m fuel vis cur = .ended e) :
    m.get? e = none ∧ ∃ n, n < fuel ∧ nodeAt m.get? n cur = some e := by
  induction fuel generalizing vis cur with
  | zero => simp [walk] at h
  | succ k ih =>
    unfold walk at h
    by_cases hv : vis.getB cur = true
    · simp [hv] at h
    · have hv' : vis.getB cur = false := by simpa using hv
      simp only [hv', Bool.false_eq_true, if_false] at h
      cases hg : m.get? cur with
      | none =>
        simp only [hg, WalkResult.ended.injEq] at h
        subst h
        exact ⟨hg, 0, Nat.succ_pos _, rfl⟩
      | some d =>
        simp only [hg] at h
        obtain ⟨h1, n, hn, hnode⟩ := ih _ _ h
        exact ⟨h1, n + 1, by omega, by simpa [nodeAt, hg] using hnode⟩

theorem follow_eq (adj : String → Option String) (n N : Nat) (s e : String)
    (hnode : nodeAt adj n s = some e) (hend : adj e = none) (hle : n ≤ N) :
    follow adj N s = e := by
  induction n generalizing s N with
  | zero =>
    simp only [nodeAt, Option.some.injEq] at hnode
    subst hnode
    cases N with
    | zero => rfl
    | succ N => simp [follow, hend]
  | succ n ih =>
    obtain ⟨N', rfl⟩ : ∃ N', N = N' + 1 := ⟨N - 1, by omega⟩
    cases hg : adj s with
    | none => simp [nodeAt, hg] at hnode
    | some d =>
      simp only [nodeAt, hg] at hnode
      simp only [follow, hg]
      exact ih N' d hnode (by omega)

theorem nodeAt_succ_last (adj : String → Option String) (n : Nat) (s x : String)
    (h : nodeAt adj (n + 1) s = some x) :
    ∃ y, nodeAt adj n s = some y ∧ adj y = some x := by
  induction n generalizing s with
  | zero =>
    cases hg : adj s with
    | none => simp [nodeAt, hg] at h
    | some d =>
      simp only [nodeAt, hg, Option.some.injEq] at h
      subst h
      exact ⟨s, rfl, hg⟩
  | succ n ih =>
    cases hg : adj s with
    | none => simp [nodeAt, hg] at h
    | some d =>
      have h' : nodeAt adj (n + 1) d = some x := by
        rw [nodeAt, hg] at h
        exact h
      obtain ⟨y, hy, hyx⟩ := ih d h'
      exact ⟨y, by rw [nodeAt, hg]; exact hy, hyx⟩

theorem lastDest_edge (flightPaths : List FlightPath) (y x : String)
    (h : lastDest flightPaths y = some x) : Edge flightPaths y x := by
  induction flightPaths with
  | nil => simp [lastDest] at h
  | cons fp rest ih =>
    simp only [lastDest] at h
    cases hr : lastDest rest y with
    | some d =>
      rw [hr] at h
      simp only [Option.some.injEq] at h
      subst h
      obtain ⟨fp', hfp', h0, h1⟩ := ih hr
      exact ⟨fp', List.mem_cons_of_mem _ hfp', h0, h1⟩
    | none =>
      rw [hr] at h
      simp only at h
      by_cases h0 : fp[0]? = some y
      · rw [if_pos h0] at h
        exact ⟨fp, List.mem_cons_self _ _, h0, h⟩
      · rw [if_neg h0] at h
        exact absurd h (by simp)

theorem mem_destinations_of_edge (flightPaths : List FlightPath) (y x : String)
    (h : Edge flightPaths y x) : x ∈ destinations flightPaths := by
  obtain ⟨fp, hfp, _, h1⟩ := h
  exact List.mem_filterMap.2 ⟨fp, hfp, h1⟩

theorem populate_some_length (flightPaths : List FlightPath) (st st' : Maps)
    (h : populate flightPaths st = some st') : ∀ fp ∈ flightPaths, 2 ≤ fp.length := by
  induction flightPaths generalizing st with
  | nil => intro fp hfp; exact absurd hfp (List.not_mem_nil fp)
  | cons fp rest ih =>
    unfold populate at h
    split at h
    · rename_i src dest h0 h1
      intro fp' hfp'
      rcases List.mem_cons.1 hfp' with rfl | hm
      · obtain ⟨hlt, _⟩ := List.getElem?_eq_some_iff.1 h1
        omega
      · exact ih _ h fp' hm
    · exact absurd h (by simp)

theorem lastDest_ne_none (flightPaths : List FlightPath)
    (hl : ∀ fp ∈ flightPaths, 2 ≤ fp.length) (k : String)
    (hk : k ∈ sources flightPaths) : lastDest flightPaths k ≠ none := by
  induction flightPaths with
  | nil => simp [sources] at hk
  | cons fp rest ih =>
    simp only [lastDest]
    cases hr : lastDest rest k with
    | some d => simp
    | none =>
      simp only
      have hkr : k ∉ sources rest := fun hm =>
        ih (fun fp hfp => hl fp (List.mem_cons_of_mem _ hfp)) hm hr
      obtain ⟨x, hx, hxk⟩ := List.mem_filterMap.1 hk
      rcases List.mem_cons.1 hx with rfl | hm
      · rw [if_pos hxk]
        have h2 := hl x (List.mem_cons_self _ _)
        intro hnone
        have := List.getElem?_eq_none_iff.1 hnone
        omega
      · exact absurd (List.mem_filterMap.2 ⟨x, hm, hxk⟩) hkr

/-- A successful call has passed the checks and walked every primary source to
an end. -/
theorem calculate_ok_inv (fuel : Nat) (srcOrder dstOrder : List String)
    (flightPaths : List FlightPath) (r : List (List String))
    (hr : RangeOrder srcOrder dstOrder flightPaths)
    (hok : calculate fuel srcOrder dstOrder flightPaths = .ok r) :
    ∃ st, populate flightPaths Maps.init = some st ∧
      srcOrder.Perm st.sourceSet.keys ∧
      srcOrder.filter (fun key => !st.destinationSet.getB key) ≠ [] ∧
      (∀ s ∈ srcOrder.filter (fun key => !st.destinationSet.getB key),
        ∃ e, walk st.srcToDestMap fuel GoMap.empty s = .ended e) ∧
      r = (srcOrder.filter (fun key => !st.destinationSet.getB key)).map
        (fun s => [s, walkEnd st.srcToDestMap fuel s]) := by
  cases hst : populate flightPaths Maps.init with
  | none => simp [calculate, hst] at hok
  | some st =>
    have hso : srcOrder.Perm st.sourceSet.keys := by
      unfold RangeOrder at hr; rw [hst] at hr; exact hr.1
    unfold calculate at hok
    simp only [hst] at hok
    by_cases h0 : (srcOrder.filter (fun key => !st.destinationSet.getB key)).length < 1
    · rw [if_pos h0] at hok
      exact absurd hok (by simp)
    · rw [if_neg h0] at hok
      by_cases h1 : st.destinationSet.len < 1
      · rw [if_pos h1] at hok
        exact absurd hok (by simp)
      · rw [if_neg h1] at hok
        split at hok
        · exact absurd hok (by simp)
        · have hall := walkAll_ok_inv _ _ _ _ _ hok
          have hne : srcOrder.filter (fun key => !st.destinationSet.getB key) ≠ [] := by
            intro he
            rw [he] at h0
            simp at h0
          refine ⟨st, rfl, hso, hne, hall, ?_⟩
          rw [walkAll_ok _ _ _ _ hall] at hok
          simpa using hok.symm

/-- Where a walk that ended has stopped, in the vocabulary of the specification. -/
theorem walk_ended_spec (fuel : Nat) (flightPaths : List FlightPath) (st : Maps)
    (hst : populate flightPaths Maps.init = some st) (s e : String)
    (hw : walk st.srcToDestMap fuel GoMap.empty s = .ended e) :
    lastDest flightPaths e = none ∧
      ∃ n, n ≤ flightPaths.length ∧ nodeAt (lastDest flightPaths) n s = some e := by
  have hadj : st.srcToDestMap.get? = lastDest flightPaths :=
    funext (populate_init flightPaths st hst).2.2.1
  have hw' : walk st.srcToDestMap (flightPaths.length + 1) GoMap.empty s = .ended e := by
    rw [walk_fuel_indep st.srcToDestMap (flightPaths.length + 1) fuel GoMap.empty s
      (walk_enough_fuel _ flightPaths st hst (Nat.lt_succ_self _) s) (by rw [hw]; simp)]
    exact hw
  obtain ⟨h1, n, hn, hnode⟩ := walk_ended_bound _ _ _ _ _ hw'
  rw [hadj] at h1 hnode
  exact ⟨h1, n, by omega, hnode⟩

theorem primaryList_nodup (flightPaths : List FlightPath) :
    (primaryList flightPaths).Nodup :=
  (List.nodup_dedup _).filter _

theorem mem_primaryList (flightPaths : List FlightPath) (s : String) :
    s ∈ primaryList flightPaths ↔ s ∈ primarySet flightPaths := by
  simp [primaryList, primarySet]

/-- C16: whenever `calculate` succeeds, its result is a permutation of the list
of the pairs `[s, end(s)]`, one for each distinct primary source `s`, where
`end(s)` is reached from `s` by following the last-write-wins adjacency to a
node without entry; the result is not empty. -/
theorem calculate_success_pairs (fuel : Nat) (srcOrder dstOrder : List String)
    (flightPaths : List FlightPath) (r : List (List String))
    (hr : RangeOrder srcOrder dstOrder flightPaths)
    (hok : calculate fuel srcOrder dstOrder flightPaths = .ok r) :
    r.Perm ((primaryList flightPaths).map (fun s => [s, chainEnd flightPaths s])) ∧
    (primaryList flightPaths).Nodup ∧
    (∀ s, s ∈ primaryList flightPaths ↔ s ∈ primarySet flightPaths) ∧
    (∀ s ∈ primarySet flightPaths, IsEnd flightPaths s (chainEnd flightPaths s)) ∧
    r ≠ [] := by
  obtain ⟨st, hst, hso, hne, hall, hres⟩ :=
    calculate_ok_inv fuel srcOrder dstOrder flightPaths r hr hok
  have hmem := mem_primarySources flightPaths st hst srcOrder hso
  have hnd : (srcOrder.filter (fun key => !st.destinationSet.getB key)).Nodup :=
    (hso.nodup_iff.2 (populate_init flightPaths st hst).2.2.2.1).filter _
  have hend : ∀ s ∈ srcOrder.filter (fun key => !st.destinationSet.getB key),
      walkEnd st.srcToDestMap fuel s = chainEnd flightPaths s ∧
        IsEnd flightPaths s (chainEnd flightPaths s) := by
    intro s hs
    obtain ⟨e, he⟩ := hall s hs
    obtain ⟨h1, n, hn, hnode⟩ := walk_ended_spec fuel flightPaths st hst s e he
    have hf : chainEnd flightPaths s = e := follow_eq _ n _ s e hnode h1 hn
    refine ⟨by simp [walkEnd, he, hf], n, ?_, ?_⟩
    · rw [hf]; exact hnode
    · rw [hf]; exact h1
  have hperm : (srcOrder.filter (fun key => !st.destinationSet.getB key)).Perm
      (primaryList flightPaths) :=
    (List.perm_ext_iff_of_nodup hnd (primaryList_nodup flightPaths)).2
      (fun s => by rw [hmem s, mem_primaryList])
  refine ⟨?_, primaryList_nodup flightPaths, mem_primaryList flightPaths, ?_, ?_⟩
  · rw [hres, List.map_congr_left (fun s hs => by rw [(hend s hs).1])]
    exact hperm.map _
  · intro s hs
    exact (hend s ((hmem s).2 hs)).2
  · rw [hres]
    intro he
    exact hne (List.map_eq_nil_iff.1 he)

/-- Witness of C16 on the input of the test "Multiple Sources Destinations". -/
theorem calculate_success_pairs_witness :
    RangeOrder ["IAD", "ATL", "GSO", "SFO", "IND"] ["JFK", "GSO", "IND", "ATL", "EWR"]
      [["IND", "EWR"], ["SFO", "ATL"], ["GSO", "IND"], ["ATL", "GSO"], ["IAD", "JFK"]] ∧
    calculate 6 ["IAD", "ATL", "GSO", "SFO", "IND"] ["JFK", "GSO", "IND", "ATL", "EWR"]
      [["IND", "EWR"], ["SFO", "ATL"], ["GSO", "IND"], ["ATL", "GSO"], ["IAD", "JFK"]]
      = .ok [["IAD", "JFK"], ["SFO", "EWR"]] ∧
    (List.Perm [["IAD", "JFK"], ["SFO", "EWR"]]
      ((primaryList [["IND", "EWR"], ["SFO", "ATL"], ["GSO", "IND"], ["ATL", "GSO"],
          ["IAD", "JFK"]]).map
        (fun s => [s, chainEnd [["IND", "EWR"], ["SFO", "ATL"], ["GSO", "IND"],
          ["ATL", "GSO"], ["IAD", "JFK"]] s])) ∧
    (primaryList [["IND", "EWR"], ["SFO", "ATL"], ["GSO", "IND"], ["ATL", "GSO"],
      ["IAD", "JFK"]]).Nodup ∧
    (∀ s, s ∈ primaryList [["IND", "EWR"], ["SFO", "ATL"], ["GSO", "IND"],
        ["ATL", "GSO"], ["IAD", "JFK"]]
      ↔ s ∈ primarySet [["IND", "EWR"], ["SFO", "ATL"], ["GSO", "IND"],
        ["ATL", "GSO"], ["IAD", "JFK"]]) ∧
    (∀ s ∈ primarySet [["IND", "EWR"], ["SFO", "ATL"], ["GSO", "IND"], ["ATL", "GSO"],
        ["IAD", "JFK"]],
      IsEnd [["IND", "EWR"], ["SFO", "ATL"], ["GSO", "IND"], ["ATL", "GSO"],
        ["IAD", "JFK"]] s
        (chainEnd [["IND", "EWR"], ["SFO", "ATL"], ["GSO", "IND"], ["ATL", "GSO"],
          ["IAD", "JFK"]] s)) ∧
    ([["IAD", "JFK"], ["SFO", "EWR"]] : List (List String)) ≠ []) :=
  ⟨by decide, by decide,
    calculate_success_pairs 6 ["IAD", "ATL", "GSO", "SFO", "IND"]
      ["JFK", "GSO", "IND", "ATL", "EWR"]
      [["IND", "EWR"], ["SFO", "ATL"], ["GSO", "IND"], ["ATL", "GSO"], ["IAD", "JFK"]]
      [["IAD", "JFK"], ["SFO", "EWR"]] (by decide) (by decide)⟩

/-- C17: whenever `calculate` succeeds, every pair of the result is `[s, e]` with
`s` a primary source (a source that is never a destination), `e` a final
destination (a destination that is never a source), and `s ≠ e`. -/
theorem calculate_pairs_start_end (fuel : Nat) (srcOrder dstOrder : List String)
    (flightPaths : List FlightPath) (r : List (List String))
    (hr : RangeOrder srcOrder dstOrder flightPaths)
    (hok : calculate fuel srcOrder dstOrder flightPaths = .ok r) :
    ∀ pair ∈ r, ∃ s e, pair = [s, e] ∧
      (s ∈ sources flightPaths ∧ s ∉ destinations flightPaths) ∧
      (e ∈ destinations flightPaths ∧ e ∉ sources flightPaths) ∧ s ≠ e := by
  obtain ⟨st, hst, hso, _, hall, hres⟩ :=
    calculate_ok_inv fuel srcOrder dstOrder flightPaths r hr hok
  have hl := populate_some_length flightPaths Maps.init st hst
  intro pair hpair
  rw [hres] at hpair
  obtain ⟨s, hs, rfl⟩ := List.mem_map.1 hpair
  obtain ⟨e, he⟩ := hall s hs
  have hsp : s ∈ sources flightPaths ∧ s ∉ destinations flightPaths := by
    have := (mem_primarySources flightPaths st hst srcOrder hso s).1 hs
    simpa [primarySet] using this
  obtain ⟨h1, n, _, hnode⟩ := walk_ended_spec fuel flightPaths st hst s e he
  have hes : e ∉ sources flightPaths := fun hm =>
    lastDest_ne_none flightPaths hl e hm h1
  have hed : e ∈ destinations flightPaths := by
    cases n with
    | zero =>
      simp only [nodeAt, Option.some.injEq] at hnode
      subst hnode
      exact absurd hsp.1 hes
    | succ n =>
      obtain ⟨y, _, hyx⟩ := nodeAt_succ_last _ n s e hnode
      exact mem_destinations_of_edge flightPaths y e (lastDest_edge flightPaths y e hyx)
  refine ⟨s, e, by simp [walkEnd, he], hsp, ⟨hed, hes⟩, ?_⟩
  intro hse
  subst hse
  exact hsp.2 hed

/-- Witness of C17 on the input of the test "Connected Flights". -/
theorem calculate_pairs_start_end_witness :
    RangeOrder ["SFO", "ATL"] ["ATL", "EWR"] [["ATL", "EWR"], ["SFO", "ATL"]] ∧
    calculate 3 ["SFO", "ATL"] ["ATL", "EWR"] [["ATL", "EWR"], ["SFO", "ATL"]]
      = .ok [["SFO", "EWR"]] ∧
    ∀ pair ∈ [["SFO", "EWR"]], ∃ s e, pair = [s, e] ∧
      (s ∈ sources [["ATL", "EWR"], ["SFO", "ATL"]] ∧
        s ∉ destinations [["ATL", "EWR"], ["SFO", "ATL"]]) ∧
      (e ∈ destinations [["ATL", "EWR"], ["SFO", "ATL"]] ∧
        e ∉ sources [["ATL", "EWR"], ["SFO", "ATL"]]) ∧ s ≠ e :=
  ⟨by decide, by decide,
    calculate_pairs_start_end 3 ["SFO", "ATL"] ["ATL", "EWR"]
      [["ATL", "EWR"], ["SFO", "ATL"]] [["SFO", "EWR"]] (by decide) (by decide)⟩

/-! ## Inputs without duplicate sources -/

/-- With pairwise distinct destinations, the adjacency is injective. -/
theorem lastDest_injective (flightPaths : List FlightPath)
    (hd : (destinations flightPaths).Nodup) (y y' x : String)
    (h : lastDest flightPaths y = some x) (h' : lastDest flightPaths y' = some x) :
    y = y' := by
  obtain ⟨fp, hfp, h0, h1⟩ := lastDest_edge flightPaths y x h
  obtain ⟨fp', hfp', h0', h1'⟩ := lastDest_edge flightPaths y' x h'
  have := filterMap_nodup_inj (fun fp => fp[1]?) flightPaths hd fp fp' hfp hfp' x h1 h1'
  subst this
  rw [h0] at h0'
  exact Option.some.inj h0'

/-- With pairwise distinct destinations, a walk that starts at a node that is
not a destination never meets an identifier twice. -/
theorem not_revisits_of_nodup (flightPaths : List FlightPath)
    (hd : (destinations flightPaths).Nodup) (s : String)
    (hs : s ∉ destinations flightPaths) : ¬ Revisits flightPaths s := by
  have key : ∀ i j x, i < j → nodeAt (lastDest flightPaths) i s = some x →
      nodeAt (lastDest flightPaths) j s = some x → False := by
    intro i
    induction i with
    | zero =>
      intro j x hij hi hj
      simp only [nodeAt, Option.some.injEq] at hi
      subst hi
      obtain ⟨j', rfl⟩ : ∃ j', j = j' + 1 := ⟨j - 1, by omega⟩
      obtain ⟨y, _, hyx⟩ := nodeAt_succ_last _ j' s s hj
      exact hs (mem_destinations_of_edge flightPaths y s
        (lastDest_edge flightPaths y s hyx))
    | succ i ih =>
      intro j x hij hi hj
      obtain ⟨j', rfl⟩ : ∃ j', j = j' + 1 := ⟨j - 1, by omega⟩
      obtain ⟨y, hy, hyx⟩ := nodeAt_succ_last _ i s x hi
      obtain ⟨y', hy', hyx'⟩ := nodeAt_succ_last _ j' s x hj
      have := lastDest_injective flightPaths hd y y' x hyx hyx'
      subst this
      exact ih j' y (by omega) hy hy'
  rintro ⟨i, j, x, hij, hi, hj⟩
  exact key i j x hij hi hj

/-- Without duplicate sources, equal counts of primary sources and final
destinations force the destinations to be pairwise distinct. -/
theorem destinations_nodup_of_counts (flightPaths : List FlightPath)
    (h2 : ∀ fp ∈ flightPaths, fp.length = 2) (hs : (sources flightPaths).Nodup)
    (hc : (primarySet flightPaths).card = (finalSet flightPaths).card) :
    (destinations flightPaths).Nodup := by
  by_contra hn
  have h1 := toFinset_card_lt _ hn
  have h3 := List.toFinset_card_of_nodup hs
  have hadd := card_primarySet_add flightPaths
  have hls := length_sources flightPaths h2
  have hld := length_destinations flightPaths h2
  omega

/-- C19: for an edge list (of two-element edges) in which no two edges share a
source, `calculate` never returns "Cycle detected in flight paths"; if such a
list passes the checks (a primary source exists, as many primary sources as
final destinations), the destinations are pairwise distinct too, the walk from
every primary source ends at a node without outgoing mapping, and `calculate`
succeeds. -/
theorem calculate_distinct_sources (fuel : Nat) (srcOrder dstOrder : List String)
    (flightPaths : List FlightPath) (h2 : ∀ fp ∈ flightPaths, fp.length = 2)
    (hr : RangeOrder srcOrder dstOrder flightPaths)
    (hf : flightPaths.length < fuel) (hs : (sources flightPaths).Nodup) :
    calculate fuel srcOrder dstOrder flightPaths
        ≠ .error "Cycle detected in flight paths" ∧
    ((primarySet flightPaths).Nonempty →
      (primarySet flightPaths).card = (finalSet flightPaths).card →
      (destinations flightPaths).Nodup ∧
      (∀ s ∈ primarySet flightPaths, ∃ e, IsEnd flightPaths s e) ∧
      ∃ r, calculate fuel srcOrder dstOrder flightPaths = .ok r) := by
  obtain ⟨st, hst⟩ := populate_isSome flightPaths h2 Maps.init
  have hso : srcOrder.Perm st.sourceSet.keys := by
    unfold RangeOrder at hr; rw [hst] at hr; exact hr.1
  have hmem := mem_primarySources flightPaths st hst srcOrder hso
  have hnorev : (primarySet flightPaths).card = (finalSet flightPaths).card →
      ∀ s ∈ primarySet flightPaths, ¬ Revisits flightPaths s := by
    intro hc s hsp
    have hd := destinations_nodup_of_counts flightPaths h2 hs hc
    have hsd : s ∉ destinations flightPaths := by
      simp only [primarySet, Finset.mem_sdiff, List.mem_toFinset] at hsp
      exact hsp.2
    exact not_revisits_of_nodup flightPaths hd s hsd
  have hended : (primarySet flightPaths).card = (finalSet flightPaths).card →
      ∀ s ∈ srcOrder.filter (fun key => !st.destinationSet.getB key),
        ∃ e, walk st.srcToDestMap fuel GoMap.empty s = .ended e :=
    fun hc s hsm => walk_ended_of_not_revisits fuel flightPaths st hst hf s
      (hnorev hc s ((hmem s).1 hsm))
  rw [calculate_eq fuel srcOrder dstOrder flightPaths st hst hr]
  constructor
  · by_cases h0 : (primarySet flightPaths).card < 1
    · rw [if_pos h0]
      simp only [ne_eq, Outcome.error.injEq]; decide
    · by_cases h1 : (destinations flightPaths).toFinset.card < 1
      · rw [if_neg h0, if_pos h1]
        simp only [ne_eq, Outcome.error.injEq]; decide
      · by_cases hne : (primarySet flightPaths).card ≠ (finalSet flightPaths).card
        · rw [if_neg h0, if_neg h1, if_pos hne]
          simp only [ne_eq, Outcome.error.injEq]; decide
        · rw [if_neg h0, if_neg h1, if_neg hne, walkAll_ok _ _ _ _ (hended (not_not.1 hne))]
          simp
  · intro hp hc
    have hpe : primarySet flightPaths ≠ ∅ := Finset.nonempty_iff_ne_empty.1 hp
    have h0 : ¬ (primarySet flightPaths).card < 1 := by rwa [card_lt_one_iff]
    have h1 := destinations_nonempty_of_primary flightPaths h2 hpe
    refine ⟨destinations_nodup_of_counts flightPaths h2 hs hc, ?_, ?_⟩
    · intro s hsp
      obtain ⟨e, he⟩ := hended hc s ((hmem s).2 hsp)
      obtain ⟨hnone, n, _, hnode⟩ := walk_ended_spec fuel flightPaths st hst s e he
      exact ⟨e, n, hnode, hnone⟩
    · rw [if_neg h0, if_neg h1, if_neg (not_not.2 hc), walkAll_ok _ _ _ _ (hended hc)]
      exact ⟨_, rfl⟩

/-- Witness of C19 on the input of the test "Multiple Sources Destinations". -/
theorem calculate_distinct_sources_witness :
    (∀ fp ∈ [["IND", "EWR"], ["SFO", "ATL"], ["GSO", "IND"], ["ATL", "GSO"],
      ["IAD", "JFK"]], fp.length = 2) ∧
    RangeOrder ["IAD", "ATL", "GSO", "SFO", "IND"] ["JFK", "GSO", "IND", "ATL", "EWR"]
      [["IND", "EWR"], ["SFO", "ATL"], ["GSO", "IND"], ["ATL", "GSO"], ["IAD", "JFK"]] ∧
    [["IND", "EWR"], ["SFO", "ATL"], ["GSO", "IND"], ["ATL", "GSO"],
      ["IAD", "JFK"]].length < 6 ∧
    (sources [["IND", "EWR"], ["SFO", "ATL"], ["GSO", "IND"], ["ATL", "GSO"],
      ["IAD", "JFK"]]).Nodup ∧
    calculate 6 ["IAD", "ATL", "GSO", "SFO", "IND"] ["JFK", "GSO", "IND", "ATL", "EWR"]
        [["IND", "EWR"], ["SFO", "ATL"], ["GSO", "IND"], ["ATL", "GSO"], ["IAD", "JFK"]]
        ≠ .error "Cycle detected in flight paths" ∧
    (primarySet [["IND", "EWR"], ["SFO", "ATL"], ["GSO", "IND"], ["ATL", "GSO"],
      ["IAD", "JFK"]]).Nonempty ∧
    (primarySet [["IND", "EWR"], ["SFO", "ATL"], ["GSO", "IND"], ["ATL", "GSO"],
      ["IAD", "JFK"]]).card
      = (finalSet [["IND", "EWR"], ["SFO", "ATL"], ["GSO", "IND"], ["ATL", "GSO"],
        ["IAD", "JFK"]]).card ∧
    ((destinations [["IND", "EWR"], ["SFO", "ATL"], ["GSO", "IND"], ["ATL", "GSO"],
      ["IAD", "JFK"]]).Nodup ∧
    (∀ s ∈ primarySet [["IND", "EWR"], ["SFO", "ATL"], ["GSO", "IND"], ["ATL", "GSO"],
        ["IAD", "JFK"]],
      ∃ e, IsEnd [["IND", "EWR"], ["SFO", "ATL"], ["GSO", "IND"], ["ATL", "GSO"],
        ["IAD", "JFK"]] s e) ∧
    ∃ r, calculate 6 ["IAD", "ATL", "GSO", "SFO", "IND"]
        ["JFK", "GSO", "IND", "ATL", "EWR"]
        [["IND", "EWR"], ["SFO", "ATL"], ["GSO", "IND"], ["ATL", "GSO"], ["IAD", "JFK"]]
        = .ok r) :=
  have h := calculate_distinct_sources 6 ["IAD", "ATL", "GSO", "SFO", "IND"]
    ["JFK", "GSO", "IND", "ATL", "EWR"]
    [["IND", "EWR"], ["SFO", "ATL"], ["GSO", "IND"], ["ATL", "GSO"], ["IAD", "JFK"]]
    (by decide) (by decide) (by decide) (by decide)
  ⟨by decide, by decide, by decide, by decide, h.1, by decide, by decide,
    h.2 (by decide) (by decide)⟩

/-! ## The handler -/

theorem invalidStructure_iff (flightPaths : List FlightPath) :
    invalidStructure flightPaths = true ↔ ∃ fp ∈ flightPaths, fp.length ≠ 2 := by
  induction flightPaths with
  | nil => simp [invalidStructure]
  | cons fp rest ih =>
    by_cases h : fp.length = 2
    · simp [invalidStructure, h, ih]
    · simp [invalidStructure, h]

theorem invalidStructure_false (flightPaths : List FlightPath)
    (h2 : ∀ fp ∈ flightPaths, fp.length = 2) : invalidStructure flightPaths = false := by
  cases h : invalidStructure flightPaths with
  | false => rfl
  | true =>
    obtain ⟨fp, hfp, hne⟩ := (invalidStructure_iff flightPaths).1 h
    exact absurd (h2 fp hfp) hne

/-- The handler on a request body that was decoded. -/
theorem calculateHandler_decoded (lib : Lib) (fuel : Nat) (srcOrder dstOrder : List String)
    (flightPaths : List FlightPath) :
    calculateHandler lib fuel srcOrder dstOrder (.ok flightPaths) =
      if invalidStructure flightPaths then
        ⟨.responded (.httpError "Request body contains invalid structure" StatusBadRequest),
          [], []⟩
      else
        match calculate fuel srcOrder dstOrder flightPaths with
        | .error msg =>
          ⟨.responded (.httpError msg StatusInternalServerError), [flightPaths], []⟩
        | .panic => ⟨.panic, [flightPaths], []⟩
        | .outOfFuel => ⟨.outOfFuel, [flightPaths], []⟩
        | .ok resultFlightPath =>
          match lib.marshal resultFlightPath with
          | .error e =>
            ⟨.responded (.httpError e StatusInternalServerError), [flightPaths], []⟩
          | .ok result =>
            ⟨.responded (.write "application/json" result), [flightPaths], []⟩ :=
  rfl

/-- C14: for a decoded request body, if some inner list has a length other than
2 the handler responds with status 400 and the message "Request body contains
invalid structure" and does not call `calculate`; if every inner list has
length 2 it calls `calculate` once, on the decoded list. -/
theorem calculateHandler_arity (lib : Lib) (fuel : Nat) (srcOrder dstOrder : List String)
    (flightPaths : List FlightPath) :
    ((∃ fp ∈ flightPaths, fp.length ≠ 2) →
      (calculateHandler lib fuel srcOrder dstOrder (.ok flightPaths)).result
        = .responded (.httpError "Request body contains invalid structure" 400) ∧
      (calculateHandler lib fuel srcOrder dstOrder (.ok flightPaths)).coreCalls = []) ∧
    ((∀ fp ∈ flightPaths, fp.length = 2) →
      (calculateHandler lib fuel srcOrder dstOrder (.ok flightPaths)).coreCalls
        = [flightPaths]) := by
  constructor
  · intro h
    have hi := (invalidStructure_iff flightPaths).2 h
    rw [calculateHandler_decoded, if_pos hi]
    exact ⟨rfl, rfl⟩
  · intro h2
    have hi := invalidStructure_false flightPaths h2
    rw [calculateHandler_decoded, if_neg (by simp [hi])]
    split
    · rfl
    · rfl
    · rfl
    · split <;> rfl

/-- Witness of C14: a request with a one-element inner list, and the request of
the test "Cycle in Flight Paths". -/
theorem calculateHandler_arity_witness :
    (∃ fp ∈ [["SFO", "EWR"], ["JFK"]], fp.length ≠ 2) ∧
    ((calculateHandler sampleLib 3 ["SFO"] ["EWR"]
        (.ok [["SFO", "EWR"], ["JFK"]])).result
        = .responded (.httpError "Request body contains invalid structure" 400) ∧
      (calculateHandler sampleLib 3 ["SFO"] ["EWR"]
        (.ok [["SFO", "EWR"], ["JFK"]])).coreCalls = []) ∧
    (∀ fp ∈ [["SFO", "IAD"], ["IAD", "JFK"], ["JFK", "SFO"]], fp.length = 2) ∧
    (calculateHandler sampleLib 4 ["SFO", "IAD", "JFK"] ["IAD", "JFK", "SFO"]
        (.ok [["SFO", "IAD"], ["IAD", "JFK"], ["JFK", "SFO"]])).coreCalls
      = [[["SFO", "IAD"], ["IAD", "JFK"], ["JFK", "SFO"]]] :=
  ⟨by decide,
    (calculateHandler_arity sampleLib 3 ["SFO"] ["EWR"] [["SFO", "EWR"], ["JFK"]]).1
      (by decide),
    by decide,
    (calculateHandler_arity sampleLib 4 ["SFO", "IAD", "JFK"] ["IAD", "JFK", "SFO"]
      [["SFO", "IAD"], ["IAD", "JFK"], ["JFK", "SFO"]]).2 (by decide)⟩

theorem calculate_ok_or_error (fuel : Nat) (srcOrder dstOrder : List String)
    (flightPaths : List FlightPath) (h2 : ∀ fp ∈ flightPaths, fp.length = 2)
    (hf : flightPaths.length < fuel) :
    (∃ r, calculate fuel srcOrder dstOrder flightPaths = .ok r) ∨
      ∃ msg, calculate fuel srcOrder dstOrder flightPaths = .error msg := by
  obtain ⟨st, hst⟩ := populate_isSome flightPaths h2 Maps.init
  have hfu := walk_enough_fuel fuel flightPaths st hst hf
  unfold calculate
  simp only [hst]
  split
  · exact Or.inr ⟨_, rfl⟩
  · split
    · exact Or.inr ⟨_, rfl⟩
    · split
      · exact Or.inr ⟨_, rfl⟩
      · cases hw : walkAll fuel st.srcToDestMap
            (List.filter (fun key => !st.destinationSet.getB key) srcOrder) [] with
        | ok r => exact Or.inl ⟨r, rfl⟩
        | error msg => exact Or.inr ⟨msg, rfl⟩
        | panic => exact absurd hw (walkAll_not_panic _ _ _ _)
        | outOfFuel =>
          exact absurd hw (walkAll_not_outOfFuel _ _ _ _ (fun s _ => hfu s))

/-- C15: for a decoded request whose edges all have two elements (and a
serializer that does not fail on lists of pairs), the handler responds with
status 500 and the message of the core error exactly when `calculate` returns
an error, whatever its kind; otherwise `calculate` returns a list of pairs and
the handler responds with status 200, `Content-Type: application/json` and the
serialized list. -/
theorem calculateHandler_status (lib : Lib) (fuel : Nat) (srcOrder dstOrder : List String)
    (flightPaths : List FlightPath) (hm : ∀ r, ∃ b, lib.marshal r = .ok b)
    (h2 : ∀ fp ∈ flightPaths, fp.length = 2) (hf : flightPaths.length < fuel) :
    (∀ msg, calculate fuel srcOrder dstOrder flightPaths = .error msg →
      (calculateHandler lib fuel srcOrder dstOrder (.ok flightPaths)).result
        = .responded (.httpError msg 500)) ∧
    (∀ r, calculate fuel srcOrder dstOrder flightPaths = .ok r →
      ∃ b, lib.marshal r = .ok b ∧
        (calculateHandler lib fuel srcOrder dstOrder (.ok flightPaths)).result
          = .responded (.write "application/json" b) ∧
        (Response.write "application/json" b).status = 200) ∧
    ((∃ msg, (calculateHandler lib fuel srcOrder dstOrder (.ok flightPaths)).result
          = .responded (.httpError msg 500))
      ↔ ∃ msg, calculate fuel srcOrder dstOrder flightPaths = .error msg) ∧
    ((∃ msg, calculate fuel srcOrder dstOrder flightPaths = .error msg) ∨
      ∃ r, calculate fuel srcOrder dstOrder flightPaths = .ok r) := by
  have hi := invalidStructure_false flightPaths h2
  have herr : ∀ msg, calculate fuel srcOrder dstOrder flightPaths = .error msg →
      (calculateHandler lib fuel srcOrder dstOrder (.ok flightPaths)).result
        = .responded (.httpError msg 500) := by
    intro msg hc
    rw [calculateHandler_decoded, if_neg (by simp [hi]), hc]
    rfl
  have hok : ∀ r, calculate fuel srcOrder dstOrder flightPaths = .ok r →
      ∃ b, lib.marshal r = .ok b ∧
        (calculateHandler lib fuel srcOrder dstOrder (.ok flightPaths)).result
          = .responded (.write "application/json" b) ∧
        (Response.write "application/json" b).status = 200 := by
    intro r hc
    obtain ⟨b, hb⟩ := hm r
    refine ⟨b, hb, ?_, rfl⟩
    rw [calculateHandler_decoded, if_neg (by simp [hi]), hc]
    simp only [hb]
  have hcases := calculate_ok_or_error fuel srcOrder dstOrder flightPaths h2 hf
  refine ⟨herr, hok, ⟨?_, fun ⟨msg, hc⟩ => ⟨msg, herr msg hc⟩⟩, hcases.symm⟩
  rintro ⟨msg, hres⟩
  rcases hcases with ⟨r, hc⟩ | ⟨msg', hc⟩
  · obtain ⟨b, _, hb, _⟩ := hok r hc
    rw [hb] at hres
    exact absurd hres (by simp)
  · exact ⟨msg', hc⟩

/-- The five cases of the test `TestCalculateHandler`: each gets status 500. -/
theorem calculateHandler_test_cases :
    (calculateHandler sampleLib 1 [] [] (.ok [])).result
      = .responded (.httpError "No primary sources could be identified" 500) ∧
    (calculateHandler sampleLib 4 ["SFO", "IAD", "JFK"] ["IAD", "JFK", "SFO"]
        (.ok [["SFO", "IAD"], ["IAD", "JFK"], ["JFK", "SFO"]])).result
      = .responded (.httpError "No primary sources could be identified" 500) ∧
    (calculateHandler sampleLib 4 ["SFO", "JFK"] ["IAD", "D", "F"]
        (.ok [["SFO", "IAD"], ["JFK", "D"], ["JFK", "F"]])).result
      = .responded
          (.httpError "Mismatch in primary sources and final destinations" 500) ∧
    (calculateHandler sampleLib 3 ["SFO", "IAD"] ["IAD", "SFO"]
        (.ok [["SFO", "IAD"], ["IAD", "SFO"]])).result
      = .responded (.httpError "No primary sources could be identified" 500) ∧
    (calculateHandler sampleLib 4 ["SFO", "JFK", "IAD"] ["IAD", "SFO"]
        (.ok [["SFO", "IAD"], ["JFK", "SFO"], ["IAD", "SFO"]])).result
      = .responded
          (.httpError "Mismatch in primary sources and final destinations" 500) := by
  refine ⟨by decide, by decide, by decide, by decide, by decide⟩

/-- Witness of C15 on the request of the test
"Mismatch in Sources and Destinations". -/
theorem calculateHandler_status_witness :
    (∀ r, ∃ b, sampleLib.marshal r = .ok b) ∧
    (∀ fp ∈ [["SFO", "IAD"], ["JFK", "D"], ["JFK", "F"]], fp.length = 2) ∧
    [["SFO", "IAD"], ["JFK", "D"], ["JFK", "F"]].length < 4 ∧
    calculate 4 ["SFO", "JFK"] ["IAD", "D", "F"]
        [["SFO", "IAD"], ["JFK", "D"], ["JFK", "F"]]
      = .error "Mismatch in primary sources and final destinations" ∧
    (calculateHandler sampleLib 4 ["SFO", "JFK"] ["IAD", "D", "F"]
        (.ok [["SFO", "IAD"], ["JFK", "D"], ["JFK", "F"]])).result
      = .responded
          (.httpError "Mismatch in primary sources and final destinations" 500) :=
  ⟨fun _ => ⟨_, rfl⟩, by decide, by decide, by decide,
    (calculateHandler_status sampleLib 4 ["SFO", "JFK"] ["IAD", "D", "F"]
      [["SFO", "IAD"], ["JFK", "D"], ["JFK", "F"]] (fun _ => ⟨_, rfl⟩)
      (by decide) (by decide)).1 _ (by decide)⟩

end FlightCalculator
